import Mathlib

/-!
Shallow embedding of the fasttemplate tag-content engine
(github.com/dwisiswant0/fasttemplate): tag classifiers, expression
tokenizer, Shunting-Yard conversion, postfix evaluator, function-call
parser and executor, strict/tolerant render paths, Validate, and the
typed Eval entry point.

Modelling conventions:
- Go float64 is modelled by Rat: every property proved here is about
  operand grouping, zero tests, loop counts and error propagation, none
  of which depend on rounding.
- Go strings are Lean Strings; the byte-indexed scans of the source
  operate on ASCII in every reachable branch modelled here, so the
  embedding walks the character list (one Char per rune).
- Writers (io.Writer) are modelled as pure string accumulators; writer
  I/O failures are outside the model.  The number-of-bytes results use
  character counts, which coincide with byte counts on the ASCII data
  exercised here.
- Go maps are modelled by GoMap: either the nil map or an association
  list with unique keys; lookups on the nil map miss, matching Go.
  Bindings maps are threaded through the evaluator as explicit state so
  that the read-only (frame) property is a provable statement rather
  than a typing triviality; the source contains no write to the
  caller's map, and correspondingly no embedded operation updates the
  threaded state.
- User-supplied functions (reflect.Func bindings) are modelled by
  FuncVal: declared arity, variadic flag, the two special dynamic-type
  shapes the source tests for (func(string) string and the legacy
  TagFunc func(io.Writer, string) (int, error)), and a behaviour on
  first-order values.  Invocations are recorded in a ghost trace (list
  of invoked names) so that invocation counts are observable.  Panics
  inside a callee (recovered by the source) are the Except.error case
  of the behaviour.
- fmt verb rendering (%q, %v on floats) is approximated by simple
  helpers; no theorem below depends on the exact text of a formatted
  float or quoted string.
-/

set_option maxHeartbeats 1000000

namespace Fasttemplate

/-- GoErr models a Go error value as it flows through the engine: its
message together with whether errors.Is would match errVariableNotFound
or errFunctionNotFound (the two sentinel errors of errors.go, preserved
through fmt.Errorf %w wrapping). -/
structure GoErr where
  varNF : Bool
  funcNF : Bool
  message : String
deriving DecidableEq, Repr

/-- GoErr.plain is a fmt.Errorf error that wraps neither sentinel. -/
def GoErr.plain (s : String) : GoErr := ⟨false, false, s⟩

/-- GoErr.varNotFound models fmt.Errorf("%w: %s", errVariableNotFound, name). -/
def GoErr.varNotFound (name : String) : GoErr :=
  ⟨true, false, "variable not found: " ++ name⟩

/-- GoErr.funcNotFound models fmt.Errorf("%w: %s", errFunctionNotFound, name). -/
def GoErr.funcNotFound (name : String) : GoErr :=
  ⟨false, true, "function not found: " ++ name⟩

/-- GoErr.wrap models fmt.Errorf("...context...: %w", err): new message,
same errors.Is behaviour. -/
def GoErr.wrap (ctx : String) (e : GoErr) : GoErr :=
  ⟨e.varNF, e.funcNF, ctx ++ e.message⟩

/-- Prim is the first-order fragment of the engine's runtime values:
what user-bound functions consume and produce in this model.  Go's
interface{} can carry more shapes; the claims under verification only
exercise these. -/
inductive Prim where
  | int (n : Int)
  | float (q : Rat)
  | str (s : String)
  | bool (b : Bool)
  | bytes (s : String)
  | null
deriving DecidableEq, Repr

/-- CallRet models the []reflect.Value returned by reflect.Call:
no results, one result, or two-or-more results whose second slot is an
error-or-nil. -/
inductive CallRet where
  | unit
  | one (v : Prim)
  | more (v : Prim) (e : Option GoErr)
deriving DecidableEq, Repr

/-- FuncVal models a function value stored in a bindings map: the
reflect-visible arity data, whether its dynamic type is exactly
func(string) string (the inline-pipe type assertion of evaluatePostfix),
whether it is exactly the legacy TagFunc func(io.Writer, string)
(int, error) (modelled as tag ↦ (written text, returned n, returned
error)), and its behaviour under reflect.Call.  A behaviour returning
Except.error models a panic inside reflect.Call or the callee, which
the source recovers. -/
structure FuncVal where
  numIn : Nat
  variadic : Bool
  strToStr : Option (String → String)
  tagFunc : Option (String → String × Nat × Option GoErr)
  call : List Prim → Except String CallRet

/-- Value is the closed variant of runtime values flowing through the
evaluator stack and bindings maps. -/
inductive Value where
  | int (n : Int)
  | float (q : Rat)
  | str (s : String)
  | bool (b : Bool)
  | bytes (s : String)
  | null
  | func (f : FuncVal)

/-- Prim.toValue injects first-order values into Value. -/
def Prim.toValue : Prim → Value
  | .int n => .int n
  | .float q => .float q
  | .str s => .str s
  | .bool b => .bool b
  | .bytes s => .bytes s
  | .null => .null

/-- Value.toPrim projects out of the first-order fragment; a function
value has no first-order image (passing a function as an argument to a
reflected call is outside this model). -/
def Value.toPrim : Value → Option Prim
  | .int n => some (.int n)
  | .float q => some (.float q)
  | .str s => some (.str s)
  | .bool b => some (.bool b)
  | .bytes s => some (.bytes s)
  | .null => some .null
  | .func _ => none

/-- Value.isFunc mirrors reflect.TypeOf(v).Kind() == reflect.Func. -/
def Value.isFunc : Value → Bool
  | .func _ => true
  | _ => false

/-- Value.isNull mirrors v == nil on an interface{} value. -/
def Value.isNull : Value → Bool
  | .null => true
  | _ => false

/-- GoMap models a Go map[string]any (the Map type of the source):
either the nil map or a finite association list. -/
inductive GoMap where
  | nil
  | mk (entries : List (String × Value))

/-- lookupEntries is first-match association-list lookup. -/
def lookupEntries : List (String × Value) → String → Option Value
  | [], _ => none
  | (k, v) :: rest, key => if k == key then some v else lookupEntries rest key

/-- GoMap.lookup mirrors m[key]: a nil map always misses. -/
def GoMap.lookup : GoMap → String → Option Value
  | .nil, _ => none
  | .mk es, key => lookupEntries es key

/-- GoMap.entries gives the iteration view of the map (ranging over a
nil map yields nothing). -/
def GoMap.entries : GoMap → List (String × Value)
  | .nil => []
  | .mk es => es

/-- GoMap.isNil mirrors m == nil. -/
def GoMap.isNil : GoMap → Bool
  | .nil => true
  | .mk _ => false

/-! ## String helpers shared by the classifiers and parsers -/

/-- isSpaceChar is the ASCII whitespace class of strings.TrimSpace as
exercised here (the Unicode spaces TrimSpace also strips never occur in
the modelled inputs). -/
def isSpaceChar (c : Char) : Bool :=
  c == ' ' || c == '\t' || c == '\n' || c == '\r'

/-- goTrim models strings.TrimSpace. -/
def goTrim (s : String) : String :=
  String.mk (((s.data.dropWhile isSpaceChar).reverse.dropWhile isSpaceChar).reverse)

/-- charIndex mirrors strings.IndexByte for a single character. -/
def charIndex : List Char → Char → Option Nat
  | [], _ => none
  | c :: cs, t => if c == t then some 0 else (charIndex cs t).map (· + 1)

/-- lastChar returns the final character, used for strings.HasSuffix
with a one-character suffix. -/
def lastChar (s : String) : Option Char := s.data.getLast?

/-- digitsToNat folds a run of decimal digits into a Nat. -/
def digitsToNat : List Char → Nat → Nat
  | [], acc => acc
  | c :: cs, acc => digitsToNat cs (acc * 10 + (c.toNat - ('0').toNat))

/-- allDigits tests a non-empty all-decimal-digit run. -/
def allDigits (cs : List Char) : Bool := !cs.isEmpty && cs.all Char.isDigit

/-- goAtoi models strconv.Atoi on the decimal literals the engine feeds
it (the 64-bit range check is not modelled; no claim exercises it). -/
def goAtoi (s : String) : Option Int :=
  match s.data with
  | '-' :: cs => if allDigits cs then some (-(digitsToNat cs 0 : Int)) else none
  | '+' :: cs => if allDigits cs then some ((digitsToNat cs 0 : Int)) else none
  | cs => if allDigits cs then some ((digitsToNat cs 0 : Int)) else none

/-- goParseFloat models strconv.ParseFloat on decimal notation
(optional sign, integer and fraction digits, optional decimal
exponent); hexadecimal floats, inf and NaN are not modelled.  The value
is exact (Rat), abstracting float64 rounding. -/
def goParseFloat (s : String) : Option Rat :=
  let cs := s.data
  let (neg, cs1) := match cs with
    | '-' :: rest => (true, rest)
    | '+' :: rest => (false, rest)
    | _ => (false, cs)
  let (ip, cs2) := cs1.span Char.isDigit
  let (fp, cs3) := match cs2 with
    | '.' :: rest => rest.span Char.isDigit
    | _ => ([], cs2)
  if ip.isEmpty && fp.isEmpty then none
  else
    let mant : Rat := (digitsToNat ip 0 : Rat) + (digitsToNat fp 0 : Rat) / ((10 : Rat) ^ fp.length)
    let signed : Rat := if neg then -mant else mant
    match cs3 with
    | [] => some signed
    | e :: rest =>
      if e == 'e' || e == 'E' then
        let (eneg, rest1) := match rest with
          | '-' :: r => (true, r)
          | '+' :: r => (false, r)
          | _ => (false, rest)
        let (ed, rest2) := rest1.span Char.isDigit
        if ed.isEmpty || !rest2.isEmpty then none
        else some (if eneg then signed / (10 : Rat) ^ (digitsToNat ed 0)
                   else signed * (10 : Rat) ^ (digitsToNat ed 0))
      else none

/-! ## Tag classifiers (functions.go, expression.go) -/

/-- isFunctionCall checks if a tag might be a function call: a '(' at a
positive index of the trimmed tag, and a ')' suffix. -/
def isFunctionCall (tag : String) : Bool :=
  let t := goTrim tag
  match charIndex t.data '(' with
  | none => false
  | some i => decide (0 < i) && (lastChar t == some ')')

/-- commonOps is the single-character operator set used for quick
expression detection. -/
def commonOps (c : Char) : Bool :=
  c == '+' || c == '-' || c == '*' || c == '/' || c == '=' ||
  c == '<' || c == '>' || c == '!' || c == '&' || c == '|' || c == '%'

/-- prevNotEscape mirrors (i == 0 || tag[i-1] != '\\'). -/
def prevNotEscape : Option Char → Bool
  | none => true
  | some p => p != '\\'

/-- isExprScan is the quote-tracking operator scan of isExpression;
prev carries the previous character.  The two-character operator checks
of the source are kept although every such operator starts with a
character already in commonOps. -/
def isExprScan : Option Char → Bool → Bool → List Char → Bool
  | _, _, _, [] => false
  | prev, sq, dq, c :: cs =>
    if c == '\'' && prevNotEscape prev then isExprScan (some c) (!sq) dq cs
    else if c == '"' && prevNotEscape prev then isExprScan (some c) sq (!dq) cs
    else if sq || dq then isExprScan (some c) sq dq cs
    else if commonOps c then true
    else if (c == '&' || c == '|' || c == '=' || c == '!' ||
             c == '<' || c == '>' || c == '*') && !cs.isEmpty then
      match cs with
      | c2 :: _ =>
        if (c == '*' && c2 == '*') ||
           (c == '&' && c2 == '&') || (c == '|' && c2 == '|') ||
           (c == '=' && c2 == '=') || (c == '!' && c2 == '=') ||
           (c == '>' && c2 == '=') || (c == '<' && c2 == '=') then true
        else isExprScan (some c) sq dq cs
      | [] => isExprScan (some c) sq dq cs
    else isExprScan (some c) sq dq cs

/-- isExpression checks if a tag contains an expression operator
outside quotes (never true for a function-call-shaped tag). -/
def isExpression (tag : String) : Bool :=
  if isFunctionCall tag then false
  else isExprScan none false false (goTrim tag).data

/-- isOpOrSpaceChar is the character class of strings.ContainsAny(s,
" \t\n\r+-*/=<>!&|%") in isLikelyVariable. -/
def isOpOrSpaceChar (c : Char) : Bool :=
  c == ' ' || c == '\t' || c == '\n' || c == '\r' ||
  c == '+' || c == '-' || c == '*' || c == '/' || c == '=' ||
  c == '<' || c == '>' || c == '!' || c == '&' || c == '|' || c == '%'

/-- isLikelyVariable determines if a string is likely a variable name
rather than a literal: not a quoted pair, not digit-led, not a boolean
literal, and free of whitespace/operator characters. -/
def isLikelyVariable (s : String) : Bool :=
  let cs := s.data
  if 2 ≤ cs.length &&
     ((cs.head? == some '"' && cs.getLast? == some '"') ||
      (cs.head? == some '\'' && cs.getLast? == some '\'')) then false
  else if 0 < cs.length && (cs.head?.getD ' ').isDigit then false
  else if s == "true" || s == "false" then false
  else if cs.any isOpOrSpaceChar then false
  else true

/-- isValidFunctionName checks the identifier shape
letter-or-underscore followed by alphanumerics-or-underscores
(unicode.IsLetter/IsDigit approximated by the ASCII classes; all inputs
exercised here are ASCII). -/
def isValidFunctionName (name : String) : Bool :=
  match name.data with
  | [] => false
  | c :: cs => (c.isAlpha || c == '_') && cs.all (fun ch => ch.isAlpha || ch.isDigit || ch == '_')

/-! ## Type coercions (expression.go helpers) -/

/-- isNumeric mirrors the numeric-kind switch (Value carries only the
int and float64 numeric shapes the engine produces). -/
def isNumeric : Value → Bool
  | .int _ => true
  | .float _ => true
  | _ => false

/-- toFloat64 converts a value to float64 per the source switch:
numerics convert, strings parse (0 on failure), booleans map to 1/0,
anything else to 0. -/
def toFloat64 : Value → Rat
  | .int n => (n : Rat)
  | .float q => q
  | .str s => match goParseFloat s with
    | some q => q
    | none => 0
  | .bool b => if b then 1 else 0
  | _ => 0

/-- formatFloat approximates fmt %v for float64: exact for integral
values (Go prints float64(5) as 5); the non-integral branch is an
approximation no theorem depends on. -/
def formatFloat (q : Rat) : String :=
  if q.den == 1 then toString q.num
  else toString q.num ++ "/" ++ toString q.den

/-- goFormatValue approximates fmt.Sprintf %v on the shapes that can
reach it (ints, floats, bools; nil prints <nil>; the function and byte
branches are unreachable through the paths modelled here). -/
def goFormatValue : Value → String
  | .int n => toString n
  | .float q => formatFloat q
  | .bool b => if b then "true" else "false"
  | .str s => s
  | .bytes _ => "[bytes]"
  | .null => "<nil>"
  | .func _ => "<func>"

/-- goToString mirrors toString: strings pass through, byte slices
convert, everything else renders via %v. -/
def goToString : Value → String
  | .str s => s
  | .bytes s => s
  | v => goFormatValue v

/-- toBool mirrors the truthiness switch: bools pass through, numbers
are true iff nonzero (via toFloat64), strings are true iff non-empty
and not "0"/"false", anything else is false. -/
def toBool : Value → Bool
  | .bool b => b
  | .int n => toFloat64 (.int n) != 0
  | .float q => toFloat64 (.float q) != 0
  | .str s => s != "" && s != "0" && s != "false"
  | _ => false

/-- truncQ is Go's float64-to-int conversion: truncation toward zero. -/
def truncQ (q : Rat) : Int := if 0 ≤ q then q.floor else q.ceil

/-- powLoop is the body of pow: result starts at 1 and is multiplied by
a once per iteration. -/
def powLoop (a : Rat) : Nat → Rat → Rat
  | 0, acc => acc
  | n + 1, acc => powLoop a n (acc * a)

/-- pow mirrors the source's repeated-multiplication loop, which runs
int(b) times when that conversion is positive and zero times
otherwise. -/
def pow (a b : Rat) : Rat := powLoop a (truncQ b).toNat 1

/-- applyOperator applies a binary operator to two popped operands with
the source's type coercions. -/
def applyOperator (op : String) (a b : Value) : Except GoErr Value :=
  if op == "+" then
    if isNumeric a && isNumeric b then .ok (.float (toFloat64 a + toFloat64 b))
    else .ok (.str (goToString a ++ goToString b))
  else if op == "-" then
    if !isNumeric a || !isNumeric b then .error (.plain ("cannot subtract non-numeric values"))
    else .ok (.float (toFloat64 a - toFloat64 b))
  else if op == "*" then
    if !isNumeric a || !isNumeric b then .error (.plain ("cannot multiply non-numeric values"))
    else .ok (.float (toFloat64 a * toFloat64 b))
  else if op == "/" then
    if !isNumeric a || !isNumeric b then .error (.plain ("cannot divide non-numeric values"))
    else if toFloat64 b == 0 then .error (.plain ("division by zero"))
    else .ok (.float (toFloat64 a / toFloat64 b))
  else if op == "%" then
    if !isNumeric a || !isNumeric b then
      .error (.plain ("cannot perform modulo on non-numeric values"))
    else if toFloat64 b == 0 then .error (.plain ("modulo by zero"))
    else .ok (.int (Int.tmod (truncQ (toFloat64 a)) (truncQ (toFloat64 b))))
  else if op == "**" then
    if !isNumeric a || !isNumeric b then
      .error (.plain ("exponentiation requires numeric values"))
    else .ok (.float (pow (toFloat64 a) (toFloat64 b)))
  else if op == ">" then
    if isNumeric a && isNumeric b then .ok (.bool (decide (toFloat64 b < toFloat64 a)))
    else .ok (.bool (decide (goToString b < goToString a)))
  else if op == "<" then
    if isNumeric a && isNumeric b then .ok (.bool (decide (toFloat64 a < toFloat64 b)))
    else .ok (.bool (decide (goToString a < goToString b)))
  else if op == ">=" then
    if isNumeric a && isNumeric b then .ok (.bool (decide (toFloat64 b ≤ toFloat64 a)))
    else .ok (.bool (decide (goToString b ≤ goToString a)))
  else if op == "<=" then
    if isNumeric a && isNumeric b then .ok (.bool (decide (toFloat64 a ≤ toFloat64 b)))
    else .ok (.bool (decide (goToString a ≤ goToString b)))
  else if op == "==" then
    if isNumeric a && isNumeric b then .ok (.bool (toFloat64 a == toFloat64 b))
    else .ok (.bool (goToString a == goToString b))
  else if op == "!=" then
    if isNumeric a && isNumeric b then .ok (.bool (toFloat64 a != toFloat64 b))
    else .ok (.bool (goToString a != goToString b))
  else if op == "&&" then .ok (.bool (toBool a && toBool b))
  else if op == "||" then .ok (.bool (toBool a || toBool b))
  else .error (.plain ("unsupported operator: " ++ op))

/-! ## Tokenizer (expression.go) -/

/-- Token mirrors the token structure: type plus raw source slice. -/
inductive Token where
  | op (s : String)
  | num (s : String)
  | str (s : String)
  | ident (s : String)
  | lparen
  | rparen
  | fcall (s : String)
deriving DecidableEq, Repr

/-- scanNumber consumes a digit-and-dot run, failing on a second
decimal point; returns the consumed run and the rest. -/
def scanNumber : List Char → Bool → Except GoErr (List Char × List Char)
  | [], _ => .ok ([], [])
  | c :: cs, hasDot =>
    if c.isDigit then
      match scanNumber cs hasDot with
      | .error e => .error e
      | .ok (tk, rest) => .ok (c :: tk, rest)
    else if c == '.' then
      if hasDot then .error (.plain ("invalid number format: multiple decimal points"))
      else
        match scanNumber cs true with
        | .error e => .error e
        | .ok (tk, rest) => .ok (c :: tk, rest)
    else .ok ([], c :: cs)

/-- skipQuoteRest advances past a quoted run's body (backslash pairs
skipped) and stops at the closing quote, or at the end of input when
unterminated; it returns the rest starting at the closing quote. -/
def skipQuoteRest (q : Char) : List Char → List Char
  | [] => []
  | [c] => if c == q then [c] else []
  | c :: c2 :: cs =>
    if c == q then c :: c2 :: cs
    else if c == '\\' then skipQuoteRest q cs
    else skipQuoteRest q (c2 :: cs)

theorem skipQuoteRest_length_le (q : Char) : ∀ (l : List Char),
    (skipQuoteRest q l).length ≤ l.length
  | [] => Nat.le.refl
  | [c] => by
    simp only [skipQuoteRest]
    split <;> simp
  | c :: c2 :: cs => by
    simp only [skipQuoteRest]
    split
    · simp
    · split
      · have ih := skipQuoteRest_length_le q cs
        simp only [List.length_cons]
        omega
      · have ih := skipQuoteRest_length_le q (c2 :: cs)
        simp only [List.length_cons] at ih ⊢
        omega

/-- fcallLoopF is the balanced-parenthesis scan of a function-call
span: it starts just after the opening parenthesis at depth 1, skips
quoted substrings, and returns the rest after the matching closing
parenthesis, or none when unclosed.  Each step consumes at least one
character, so the fuel supplied at the call site (length + 1) cannot
run out; exhaustion shares the unclosed result. -/
def fcallLoopF : Nat → List Char → Nat → Option (List Char)
  | 0, _, _ => none
  | _ + 1, [], _ => none
  | fuel + 1, c :: cs, depth =>
    if c == '(' then fcallLoopF fuel cs (depth + 1)
    else if c == ')' then
      if depth == 1 then some cs
      else fcallLoopF fuel cs (depth - 1)
    else if c == '"' || c == '\'' then
      match skipQuoteRest c cs with
      | [] => none
      | _ :: rest => fcallLoopF fuel rest depth
    else fcallLoopF fuel cs depth

/-- singleOp is the singleCharOps set of the tokenizer (note: '&' and
'|' alone are not single-character operators there). -/
def singleOp (c : Char) : Bool :=
  c == '+' || c == '-' || c == '*' || c == '/' || c == '%' ||
  c == '>' || c == '<' || c == '=' || c == '!'

/-- twoCharOp is the multiCharOps set. -/
def twoCharOp (s : String) : Bool :=
  s == "||" || s == "&&" || s == "==" || s == "!=" ||
  s == ">=" || s == "<=" || s == "**"

/-- tokenizeF is the tokenizer main loop.  Fuel only bounds the number
of loop iterations; each iteration consumes at least one character, so
the wrappers below always supply enough. -/
def tokenizeF : Nat → Nat → List Char → Except GoErr (List Token)
  | 0, _, _ => .error (.plain ("tokenizer fuel exhausted"))
  | fuel + 1, pos, l =>
    match l with
    | [] => .ok []
    | c :: cs =>
      if c == ' ' || c == '\t' || c == '\n' || c == '\r' then
        tokenizeF fuel (pos + 1) cs
      else if c.isDigit then
        match scanNumber (c :: cs) false with
        | .error e => .error e
        | .ok (tk, rest) =>
          match tokenizeF fuel (pos + tk.length) rest with
          | .error e => .error e
          | .ok ts => .ok (.num (String.mk tk) :: ts)
      else if c.isAlpha || c == '_' then
        let sp := (c :: cs).span (fun ch => ch.isAlpha || ch.isDigit || ch == '_')
        match sp.2 with
        | '(' :: rest2 =>
          match fcallLoopF (rest2.length + 1) rest2 1 with
          | none => .error (.plain ("unclosed function call"))
          | some rest3 =>
            let consumed := (c :: cs).length - rest3.length
            match tokenizeF fuel (pos + consumed) rest3 with
            | .error e => .error e
            | .ok ts => .ok (.fcall (String.mk ((c :: cs).take consumed)) :: ts)
        | _ =>
          match tokenizeF fuel (pos + sp.1.length) sp.2 with
          | .error e => .error e
          | .ok ts => .ok (.ident (String.mk sp.1) :: ts)
      else if c == '"' || c == '\'' then
        match skipQuoteRest c cs with
        | [] => .error (.plain ("unterminated string"))
        | _ :: rest =>
          let consumed := (c :: cs).length - rest.length
          match tokenizeF fuel (pos + consumed) rest with
          | .error e => .error e
          | .ok ts => .ok (.str (String.mk ((c :: cs).take consumed)) :: ts)
      else if c == '(' then
        match tokenizeF fuel (pos + 1) cs with
        | .error e => .error e
        | .ok ts => .ok (.lparen :: ts)
      else if c == ')' then
        match tokenizeF fuel (pos + 1) cs with
        | .error e => .error e
        | .ok ts => .ok (.rparen :: ts)
      else
        match cs with
        | c2 :: rest2 =>
          if twoCharOp (String.mk [c, c2]) then
            match tokenizeF fuel (pos + 2) rest2 with
            | .error e => .error e
            | .ok ts => .ok (.op (String.mk [c, c2]) :: ts)
          else if singleOp c then
            match tokenizeF fuel (pos + 1) cs with
            | .error e => .error e
            | .ok ts => .ok (.op (String.mk [c]) :: ts)
          else .error (.plain ("unexpected character at position " ++ toString pos))
        | [] =>
          if singleOp c then
            match tokenizeF fuel (pos + 1) [] with
            | .error e => .error e
            | .ok ts => .ok (.op (String.mk [c]) :: ts)
          else .error (.plain ("unexpected character at position " ++ toString pos))

/-- tokenize runs the tokenizer with enough fuel for its input. -/
def tokenize (s : String) : Except GoErr (List Token) :=
  tokenizeF (s.length + 1) 0 s.data

/-! ## Shunting-Yard conversion (expression.go toPostfix) -/

/-- precedenceOf is the operators precedence table; an unknown string
gets the Go map zero value 0. -/
def precedenceOf (s : String) : Nat :=
  if s == "||" then 1
  else if s == "&&" then 2
  else if s == "==" || s == "!=" then 3
  else if s == ">" || s == ">=" || s == "<" || s == "<=" then 4
  else if s == "+" || s == "-" then 5
  else if s == "*" || s == "/" || s == "%" then 6
  else if s == "**" then 7
  else 0

/-- popGE pops stack-top operators of precedence at least p (the
left-associativity rule), returning (popped in order, remaining
stack). -/
def popGE (p : Nat) : List Token → List Token × List Token
  | [] => ([], [])
  | t :: ts =>
    match t with
    | .op s =>
      if p ≤ precedenceOf s then
        let r := popGE p ts
        (Token.op s :: r.1, r.2)
      else ([], t :: ts)
    | _ => ([], t :: ts)

/-- popToLParen pops to the matching left parenthesis; none means
mismatched parentheses. -/
def popToLParen : List Token → Option (List Token × List Token)
  | [] => none
  | t :: ts =>
    match t with
    | .lparen => some ([], ts)
    | _ =>
      match popToLParen ts with
      | none => none
      | some (o, st) => some (t :: o, st)

/-- drainStack empties the operator stack at the end of conversion,
failing on a residual left parenthesis. -/
def drainStack : List Token → List Token → Except GoErr (List Token)
  | out, [] => .ok out
  | out, t :: ts =>
    match t with
    | .lparen => .error (.plain ("mismatched parentheses"))
    | _ => drainStack (out ++ [t]) ts

/-- toPostfixAux is the Shunting-Yard loop over the infix tokens. -/
def toPostfixAux : List Token → List Token → List Token → Except GoErr (List Token)
  | [], out, stack => drainStack out stack
  | t :: ts, out, stack =>
    match t with
    | .num s => toPostfixAux ts (out ++ [Token.num s]) stack
    | .str s => toPostfixAux ts (out ++ [Token.str s]) stack
    | .ident s => toPostfixAux ts (out ++ [Token.ident s]) stack
    | .fcall s => toPostfixAux ts (out ++ [Token.fcall s]) stack
    | .lparen => toPostfixAux ts out (Token.lparen :: stack)
    | .rparen =>
      match popToLParen stack with
      | none => .error (.plain ("mismatched parentheses"))
      | some (o, st) => toPostfixAux ts (out ++ o) st
    | .op s =>
      let r := popGE (precedenceOf s) stack
      toPostfixAux ts (out ++ r.1) (Token.op s :: r.2)

/-- toPostfixGo converts infix tokens to postfix notation. -/
def toPostfixGo (ts : List Token) : Except GoErr (List Token) :=
  toPostfixAux ts [] []

/-! ## Function-call parser (functions.go) -/

/-- Arg is the classified argument variant produced by parseArg:
quoted literal (literalString), raw string / bareword, int, float,
bool, nested call, or deferred sub-expression. -/
inductive Arg where
  | lit (s : String)
  | str (s : String)
  | int (n : Int)
  | float (q : Rat)
  | bool (b : Bool)
  | call (name : String) (args : List Arg)
  | expr (s : String)
deriving Repr

/-- FuncCallT is the parsed functionCall structure: name and classified
arguments. -/
structure FuncCallT where
  name : String
  args : List Arg
deriving Repr

/-- splitArgsLoop is the comma-splitting loop of parseArgs: escape
aware inside quotes, comma splits only outside quotes at parenthesis
depth 0; the unterminated-quote/parenthesis check runs at the end.  It
returns every raw chunk (the per-chunk trimming and empty-chunk
dropping of the source happens in parseArgsF, which also runs parseArg
on exactly the surviving chunks, in order). -/
def splitArgsLoop : List Char → Bool → Bool → Bool → Int → List Char → List String →
    Except GoErr (List String)
  | [], _, sq, dq, depth, cur, acc =>
    if sq || dq || depth != 0 then
      .error (.plain ("unterminated quotes or parentheses in arguments"))
    else .ok ((String.mk cur.reverse :: acc).reverse)
  | r :: rest, esc, sq, dq, depth, cur, acc =>
    if esc then splitArgsLoop rest false sq dq depth (r :: cur) acc
    else if r == '\\' && (sq || dq) then splitArgsLoop rest true sq dq depth (r :: cur) acc
    else if r == '\'' && !dq then splitArgsLoop rest false (!sq) dq depth (r :: cur) acc
    else if r == '"' && !sq then splitArgsLoop rest false sq (!dq) depth (r :: cur) acc
    else if r == '(' && !sq && !dq then splitArgsLoop rest false sq dq (depth + 1) (r :: cur) acc
    else if r == ')' && !sq && !dq then splitArgsLoop rest false sq dq (depth - 1) (r :: cur) acc
    else if r == ',' && !sq && !dq && depth == 0 then
      splitArgsLoop rest false sq dq depth [] (String.mk cur.reverse :: acc)
    else splitArgsLoop rest false sq dq depth (r :: cur) acc

/-- splitArgs splits an argument string into raw comma chunks. -/
def splitArgs (s : String) : Except GoErr (List String) :=
  splitArgsLoop s.data false false false 0 [] []

/-- parseArgTail is the tail of parseArg after the quoted, nested-call
and numeric classifications: boolean literal, sub-expression, or
bareword.  None of these can fail. -/
def parseArgTail (s : String) : Arg :=
  if s == "true" then .bool true
  else if s == "false" then .bool false
  else if isExpression s then .expr s
  else .str s

mutual

/-- parseArgF classifies a single argument string, mirroring parseArg:
quoted pair becomes a literal; a call-shaped string is parsed
recursively, degrading to a plain string on failure; a digit-led
string tries int then float; then boolean literals, sub-expressions,
and barewords. -/
def parseArgF : Nat → String → Except GoErr Arg
  | 0, _ => .error (.plain ("parser fuel exhausted"))
  | fuel + 1, s =>
    let cs := s.data
    if 2 ≤ cs.length && cs.head? == some '\'' && cs.getLast? == some '\'' then
      .ok (.lit (String.mk (cs.drop 1).dropLast))
    else if 2 ≤ cs.length && cs.head? == some '"' && cs.getLast? == some '"' then
      .ok (.lit (String.mk (cs.drop 1).dropLast))
    else if (match charIndex cs '(' with | some i => decide (0 < i) | none => false) &&
            cs.getLast? == some ')' then
      match parseFunctionCallF fuel s with
      | .error _ => .ok (.str s)
      | .ok c => .ok (.call c.name c.args)
    else if 0 < cs.length && (cs.head?.getD ' ').isDigit then
      match goAtoi s with
      | some n => .ok (.int n)
      | none =>
        match goParseFloat s with
        | some q => .ok (.float q)
        | none => .ok (parseArgTail s)
    else .ok (parseArgTail s)

/-- parseFunctionCallF parses a string into a function-call structure:
trim, locate the first '(', validate the name, require a ')' suffix,
then parse the argument list between them. -/
def parseFunctionCallF : Nat → String → Except GoErr FuncCallT
  | 0, _ => .error (.plain ("parser fuel exhausted"))
  | fuel + 1, s0 =>
    let s := goTrim s0
    match charIndex s.data '(' with
    | none => .error (.plain ("invalid function call format: " ++ s))
    | some parenIdx =>
      if parenIdx < 1 then .error (.plain ("invalid function call format: " ++ s))
      else
        let name := goTrim (String.mk (s.data.take parenIdx))
        if !isValidFunctionName name then
          .error (.plain ("invalid function name: " ++ name))
        else if lastChar s != some ')' then
          .error (.plain ("missing closing parenthesis: " ++ s))
        else
          match parseArgsF fuel (String.mk ((s.data.drop (parenIdx + 1)).dropLast)) with
          | .error e => .error e
          | .ok args => .ok ⟨name, args⟩

/-- parseArgsF parses a comma-separated argument list: split into
chunks, trim each, drop empties, classify the rest in order. -/
def parseArgsF : Nat → String → Except GoErr (List Arg)
  | 0, _ => .error (.plain ("parser fuel exhausted"))
  | fuel + 1, s =>
    match splitArgs s with
    | .error e => .error e
    | .ok segs => mapParseArgs fuel ((segs.map goTrim).filter (fun t => t != ""))

/-- mapParseArgs runs parseArgF over the surviving chunks in order,
propagating the first error. -/
def mapParseArgs : Nat → List String → Except GoErr (List Arg)
  | _, [] => .ok []
  | 0, _ :: _ => .error (.plain ("parser fuel exhausted"))
  | fuel + 1, a :: rest =>
    match parseArgF fuel a with
    | .error e => .error e
    | .ok arg =>
      match mapParseArgs fuel rest with
      | .error e => .error e
      | .ok args => .ok (arg :: args)

end

/-- parseFunctionCall runs the parser with enough fuel for its input
(total fuel consumption is at most linear in the text, since nesting
strictly shrinks the string and arguments partition it). -/
def parseFunctionCall (s : String) : Except GoErr FuncCallT :=
  parseFunctionCallF (3 * (s.length + 2)) s

/-! ## Evaluator (expression.go evaluatePostfix, functions.go execute)

The evaluator's result type EvalRes threads two pieces of ghost state:
the trace of reflect.Call attempts (so invocation counts are
observable) and the caller's bindings map as explicit state (so the
read-only property of claim C8 is a theorem, not a typing artifact).
The source never writes to the caller's map, and correspondingly every
embedded operation passes the state through unchanged. -/

/-- EvalRes is result-or-error, invocation trace, and the threaded
bindings map. -/
def EvalRes (α : Type) : Type := Except GoErr α × List String × GoMap

/-- resOk is a successful result with empty trace and unchanged map. -/
def resOk (a : α) (m : GoMap) : EvalRes α := (.ok a, [], m)

/-- resErr is a failed result with empty trace and unchanged map. -/
def resErr (e : GoErr) (m : GoMap) : EvalRes α := (.error e, [], m)

/-- resBind sequences two evaluator steps, accumulating traces. -/
def resBind (r : EvalRes α) (f : α → GoMap → EvalRes β) : EvalRes β :=
  match r with
  | (.error e, tr, m) => (.error e, tr, m)
  | (.ok a, tr, m) =>
    match f a m with
    | (e2, tr2, m2) => (e2, tr ++ tr2, m2)

/-- resTag records one invocation name in front of a result's trace. -/
def resTag (name : String) (r : EvalRes α) : EvalRes α :=
  (r.1, name :: r.2.1, r.2.2)

/-- argsToPrim converts materialized argument values to the
first-order fragment a modelled callee accepts; a function-valued
argument has no image (reflect would only accept it for a matching
parameter type, a case outside this model). -/
def argsToPrim : List Value → Option (List Prim)
  | [] => some []
  | v :: vs =>
    match v.toPrim with
    | none => none
    | some p =>
      match argsToPrim vs with
      | none => none
      | some ps => some (p :: ps)

/-- callFn models fnValue.Call under the source's recover wrapper: a
variadic function given fewer than its fixed parameters panics inside
reflect; any panic is recovered and prefixed with the function name.
Every Call attempt is recorded in the trace. -/
def callFn (name : String) (f : FuncVal) (args : List Value) (m : GoMap) : EvalRes CallRet :=
  if f.variadic && args.length + 1 < f.numIn then
    (.error (.plain (name ++ ": reflect: Call with too few input arguments")), [name], m)
  else
    match argsToPrim args with
    | none => (.error (.plain (name ++ ": reflect: bad argument value")), [name], m)
    | some ps =>
      match f.call ps with
      | .error msg => (.error (.plain (name ++ ": " ++ msg)), [name], m)
      | .ok ret => (.ok ret, [name], m)

/-- interpretRet interprets reflect.Call results: no results is nil,
one result is that value, two results with a non-nil error slot
propagate the error, otherwise the first value. -/
def interpretRet : CallRet → Except GoErr Value
  | .unit => .ok .null
  | .one v => .ok v.toValue
  | .more v e =>
    match e with
    | some err => .error err
    | none => .ok v.toValue

/-- unescapeOne is strings.ReplaceAll over the two-character sequence
backslash-pat replaced by pat, scanning left to right. -/
def unescapeOne (pat : Char) : List Char → List Char
  | [] => []
  | [c] => [c]
  | '\\' :: c :: cs =>
    if c == pat then c :: unescapeOne pat cs
    else '\\' :: unescapeOne pat (c :: cs)
  | c :: cs => c :: unescapeOne pat cs

/-- stripQuotesUnescape is the string-token payload computation of
evaluatePostfix: drop the surrounding quotes, then unescape escaped
double and single quotes. -/
def stripQuotesUnescape (s : String) : String :=
  if 2 ≤ s.data.length then
    String.mk (unescapeOne '\'' (unescapeOne '"' ((s.data.drop 1).dropLast)))
  else s

mutual

/-- executeF mirrors functionCall.execute: resolve the name in the
funcs map (absent wraps errFunctionNotFound), require a function value
(a nil binding makes Go panic unrecovered; modelled as an error no
claim depends on), materialize the arguments against the threaded data
map, check non-variadic arity, invoke with panic recovery, and
interpret the results. -/
def executeF : Nat → GoMap → FuncCallT → GoMap → EvalRes Value
  | 0, _, _, m => resErr (.plain ("recursion limit exceeded")) m
  | fuel + 1, funcs, fc, m =>
    match funcs.lookup fc.name with
    | none => resErr (.funcNotFound fc.name) m
    | some (.func f) =>
      resBind (execArgsF fuel funcs fc.args m) (fun args m1 =>
        if f.variadic then
          resBind (callFn fc.name f args m1) (fun ret m2 =>
            match interpretRet ret with
            | .error e => resErr e m2
            | .ok v => resOk v m2)
        else if args.length != f.numIn then
          resErr (.plain ("invalid argument count: expected " ++ toString f.numIn ++
            ", got " ++ toString args.length)) m1
        else
          resBind (callFn fc.name f args m1) (fun ret m2 =>
            match interpretRet ret with
            | .error e => resErr e m2
            | .ok v => resOk v m2))
    | some .null => resErr (.plain (fc.name ++ ": nil binding (unrecovered panic in Go)")) m
    | some _ => resErr (.plain (fc.name ++ " is not a function")) m

/-- execArgsF materializes the argument list in order, propagating the
first error immediately. -/
def execArgsF : Nat → GoMap → List Arg → GoMap → EvalRes (List Value)
  | 0, _, _, m => resErr (.plain ("recursion limit exceeded")) m
  | _ + 1, _, [], m => resOk [] m
  | fuel + 1, funcs, a :: rest, m =>
    resBind (execArgF fuel funcs a m) (fun v m1 =>
      resBind (execArgsF fuel funcs rest m1) (fun vs m2 => resOk (v :: vs) m2))

/-- execArgF materializes one argument: quoted literals stay literal;
a bareword string is looked up in the data map when that map is
non-nil, failing with errVariableNotFound if absent but
variable-shaped, else falling back to its own text; primitives pass
through; nested calls and sub-expressions evaluate recursively with
errors propagating. -/
def execArgF : Nat → GoMap → Arg → GoMap → EvalRes Value
  | 0, _, _, m => resErr (.plain ("recursion limit exceeded")) m
  | fuel + 1, funcs, a, m =>
    match a with
    | .lit s => resOk (.str s) m
    | .str s =>
      match m with
      | .nil => resOk (.str s) m
      | .mk _ =>
        match m.lookup s with
        | some val => resOk val m
        | none =>
          if isLikelyVariable s then resErr (.varNotFound s) m
          else resOk (.str s) m
    | .int n => resOk (.int n) m
    | .float q => resOk (.float q) m
    | .bool b => resOk (.bool b) m
    | .call name args => executeF fuel funcs ⟨name, args⟩ m
    | .expr e => evalExpressionF fuel e m

/-- evalExpressionF mirrors evalExpression: a function-call-shaped
string parses and executes directly (with the data map doubling as the
funcs map); otherwise tokenize, convert to postfix, and evaluate.  The
process-wide postfix cache is modelled as transparent: a hit returns
exactly what tokenize plus toPostfix produce for the same string. -/
def evalExpressionF : Nat → String → GoMap → EvalRes Value
  | 0, _, m => resErr (.plain ("recursion limit exceeded")) m
  | fuel + 1, expression, m =>
    if isFunctionCall expression then
      match parseFunctionCall expression with
      | .error e => resErr e m
      | .ok fc => executeF fuel m fc m
    else
      match tokenize expression with
      | .error e => resErr e m
      | .ok toks =>
        match toPostfixGo toks with
        | .error e => resErr e m
        | .ok post => evaluatePostfixF fuel post [] m

/-- evaluatePostfixF is the stack machine over postfix tokens (stack
head is the top).  Number tokens parse as int unless they contain a
dot; string tokens strip quotes and unescape; function-call spans parse
and execute (data map doubling as funcs map); identifiers resolve with
the miss policy and the inline string-pipe special case; operators pop
two operands (underflow fails), apply, and push; parenthesis tokens
(absent from well-formed postfix) fall through the Go switch and are
skipped.  Exactly one final stack value is the result. -/
def evaluatePostfixF : Nat → List Token → List Value → GoMap → EvalRes Value
  | 0, _, _, m => resErr (.plain ("recursion limit exceeded")) m
  | _ + 1, [], stack, m =>
    match stack with
    | [v] => resOk v m
    | _ => resErr (.plain ("invalid expression: expected 1 result, got " ++
        toString stack.length)) m
  | fuel + 1, t :: rest, stack, m =>
    match t with
    | .num s =>
      if s.data.any (fun c => c == '.') then
        match goParseFloat s with
        | some q => evaluatePostfixF fuel rest (Value.float q :: stack) m
        | none => resErr (.plain ("invalid float literal: " ++ s)) m
      else
        match goAtoi s with
        | some n => evaluatePostfixF fuel rest (Value.int n :: stack) m
        | none => resErr (.plain ("invalid int literal: " ++ s)) m
    | .str s => evaluatePostfixF fuel rest (Value.str (stripQuotesUnescape s) :: stack) m
    | .fcall s =>
      match parseFunctionCall s with
      | .error e => resErr e m
      | .ok fc =>
        resBind (executeF fuel m fc m) (fun v m1 =>
          evaluatePostfixF fuel rest (v :: stack) m1)
    | .ident s =>
      match m.lookup s with
      | none =>
        if isLikelyVariable s then resErr (.varNotFound s) m
        else evaluatePostfixF fuel rest (Value.str s :: stack) m
      | some val =>
        match val, stack with
        | .func f, .str t0 :: stk =>
          match f.strToStr with
          | some g => resTag s (evaluatePostfixF fuel rest (Value.str (g t0) :: stk) m)
          | none => evaluatePostfixF fuel rest (val :: stack) m
        | _, _ => evaluatePostfixF fuel rest (val :: stack) m
    | .op s =>
      match stack with
      | b :: a :: stk =>
        match applyOperator s a b with
        | .error e => resErr e m
        | .ok r => evaluatePostfixF fuel rest (r :: stk) m
      | _ => resErr (.plain ("not enough operands for operator " ++ s)) m
    | .lparen => evaluatePostfixF fuel rest stack m
    | .rparen => evaluatePostfixF fuel rest stack m

end

/-- evalFuel is a generous recursion budget: every fuel decrement
corresponds to consuming at least part of the (strictly shrinking)
nested expression text. -/
def evalFuel (s : String) : Nat := (s.length + 2) * (s.length + 2)

/-- evalExpression evaluates an expression string with enough fuel. -/
def evalExpression (s : String) (m : GoMap) : EvalRes Value :=
  evalExpressionF (evalFuel s) s m

/-! ## Render engine (template.go) -/

/-- goQuote approximates the %q verb (no inner-escape rendering; no
theorem depends on quoted text). -/
def goQuote (s : String) : String := "\"" ++ s ++ "\""

/-- TagRes is the (bytes written, error) pair of a tag processor
together with the text it wrote, the invocation trace, and the
threaded bindings map. -/
structure TagRes where
  n : Nat
  err : Option GoErr
  out : String
  trace : List String
  mOut : GoMap

/-- tempFuncs is the function-only scan of the map built by processTag
and processTagStd before dispatching a call. -/
def tempFuncs (m : GoMap) : GoMap :=
  .mk (m.entries.filter (fun kv => !kv.2.isNull && kv.2.isFunc))

/-- isValidArgCount checks the argument count against the reflected
signature: variadic functions need at least their fixed parameters,
fixed-arity functions an exact match. -/
def isValidArgCount (numIn : Nat) (variadic : Bool) (argCount : Nat) : Bool :=
  if variadic then numIn - 1 ≤ argCount
  else numIn == argCount

/-- renderValue is the result-writing switch shared by the tag
processors: byte slices and strings write as-is, other values render
via %v. -/
def renderValue : Value → String
  | .bytes s => s
  | .str s => s
  | v => goFormatValue v

/-- processTag resolves one tag in strict mode: function calls parse,
arity-check and execute (all failures returned as errors with nothing
written); expressions evaluate (failures returned); plain tags look up
(a miss wraps errVariableNotFound; a nil value writes nothing; a bound
legacy TagFunc writes through and returns its own (n, error)). -/
def processTag (tag : String) (m : GoMap) : TagRes :=
  if isFunctionCall tag then
    match parseFunctionCall tag with
    | .error e =>
      ⟨0, some (GoErr.wrap ("error parsing function call " ++ goQuote tag ++ ": ") e), "", [], m⟩
    | .ok fc =>
      match m with
      | .nil => ⟨0, some (.plain ("no functions map provided for function call: " ++ tag)), "", [], m⟩
      | .mk _ =>
        match (tempFuncs m).lookup fc.name with
        | none => ⟨0, some (.plain ("function not found: " ++ fc.name)), "", [], m⟩
        | some (.func f) =>
          if !isValidArgCount f.numIn f.variadic fc.args.length then
            ⟨0, some (.plain ("invalid argument count for function " ++ goQuote fc.name)), "", [], m⟩
          else
            match executeF (evalFuel tag) (tempFuncs m) fc m with
            | (.error e, tr, m1) => ⟨0, some e, "", tr, m1⟩
            | (.ok .null, tr, m1) => ⟨0, none, "", tr, m1⟩
            | (.ok v, tr, m1) => ⟨(renderValue v).length, none, renderValue v, tr, m1⟩
        | some _ => ⟨0, some (.plain ("non-function in tempFuncs (unreachable)")), "", [], m⟩
  else if isExpression tag then
    match evalExpression tag m with
    | (.error e, tr, m1) => ⟨0, some e, "", tr, m1⟩
    | (.ok .null, tr, m1) => ⟨0, none, "", tr, m1⟩
    | (.ok v, tr, m1) => ⟨(renderValue v).length, none, renderValue v, tr, m1⟩
  else
    match m.lookup tag with
    | none => ⟨0, some (.varNotFound tag), "", [], m⟩
    | some .null => ⟨0, none, "", [], m⟩
    | some (.bytes s) => ⟨s.length, none, s, [], m⟩
    | some (.str s) => ⟨s.length, none, s, [], m⟩
    | some (.func f) =>
      match f.tagFunc with
      | some g => ⟨(g tag).2.1, (g tag).2.2, (g tag).1, [tag], m⟩
      | none =>
        ⟨(goFormatValue (Value.func f)).length, none, goFormatValue (Value.func f), [], m⟩
    | some v => ⟨(goFormatValue v).length, none, goFormatValue v, [], m⟩

/-- processTagStd resolves one tag in tolerant mode: every resolution
failure of a function call or expression, every unknown function and
every plain-tag miss rewrites the original startTag+tag+endTag text
with no error; the plain-tag switch is shared with strict mode, so a
bound legacy TagFunc still writes through and returns its own
(n, error). -/
def processTagStd (tag startTag endTag : String) (m : GoMap) : TagRes :=
  let preserved := startTag ++ tag ++ endTag
  if isFunctionCall tag then
    match parseFunctionCall tag with
    | .error _ => ⟨preserved.length, none, preserved, [], m⟩
    | .ok fc =>
      match m with
      | .nil => ⟨preserved.length, none, preserved, [], m⟩
      | .mk _ =>
        match (tempFuncs m).lookup fc.name with
        | none => ⟨preserved.length, none, preserved, [], m⟩
        | some (.func f) =>
          if !isValidArgCount f.numIn f.variadic fc.args.length then
            ⟨preserved.length, none, preserved, [], m⟩
          else
            match executeF (evalFuel tag) (tempFuncs m) fc m with
            | (.error _, tr, m1) => ⟨preserved.length, none, preserved, tr, m1⟩
            | (.ok .null, tr, m1) => ⟨0, none, "", tr, m1⟩
            | (.ok v, tr, m1) => ⟨(renderValue v).length, none, renderValue v, tr, m1⟩
        | some _ => ⟨0, some (.plain ("non-function in tempFuncs (unreachable)")), "", [], m⟩
  else if isExpression tag then
    match evalExpression tag m with
    | (.error _, tr, m1) => ⟨preserved.length, none, preserved, tr, m1⟩
    | (.ok .null, tr, m1) => ⟨0, none, "", tr, m1⟩
    | (.ok v, tr, m1) => ⟨(renderValue v).length, none, renderValue v, tr, m1⟩
  else
    match m.lookup tag with
    | none => ⟨preserved.length, none, preserved, [], m⟩
    | some .null => ⟨0, none, "", [], m⟩
    | some (.bytes s) => ⟨s.length, none, s, [], m⟩
    | some (.str s) => ⟨s.length, none, s, [], m⟩
    | some (.func f) =>
      match f.tagFunc with
      | some g => ⟨(g tag).2.1, (g tag).2.2, (g tag).1, [tag], m⟩
      | none =>
        ⟨(goFormatValue (Value.func f)).length, none, goFormatValue (Value.func f), [], m⟩
    | some v => ⟨(goFormatValue v).length, none, goFormatValue v, [], m⟩

/-- RenderRes is the (total bytes, error) pair of a render entry point
plus the text written, the invocation trace, and the threaded map. -/
structure RenderRes where
  nn : Nat
  err : Option GoErr
  out : String
  trace : List String
  mOut : GoMap

/-- TemplateT is the compiled template: original text, delimiters, and
the alternating literal/tag slices produced by Reset (texts has exactly
one more element than tags for every Reset-produced template). -/
structure TemplateT where
  template : String
  startTag : String
  endTag : String
  texts : List String
  tags : List String

/-- tmplExecAux is the strict render loop of Template.Execute: write
the literal, process the tag, abort with partial output on any error
unless the tag is not a function call and the error wraps
errVariableNotFound (the backward-compatibility swallow), then recurse;
the final literal is written at the end.  The mismatched-length case
cannot arise from Reset and maps to an error where Go would panic. -/
def tmplExecAux : List String → List String → GoMap → RenderRes
  | [], _, m => ⟨0, none, "", [], m⟩
  | [t], _, m => ⟨t.length, none, t, [], m⟩
  | t :: _ :: _, [], m =>
    ⟨t.length, some (.plain ("index out of range (tags shorter than texts)")), t, [], m⟩
  | t :: t2 :: ts, tag :: tags, m =>
    let pt := processTag tag m
    match pt.err with
    | some e =>
      if isFunctionCall tag || !e.varNF then
        ⟨t.length + pt.n, some e, t ++ pt.out, pt.trace, pt.mOut⟩
      else
        let r := tmplExecAux (t2 :: ts) tags pt.mOut
        ⟨t.length + pt.n + r.nn, r.err, t ++ pt.out ++ r.out, pt.trace ++ r.trace, r.mOut⟩
    | none =>
      let r := tmplExecAux (t2 :: ts) tags pt.mOut
      ⟨t.length + pt.n + r.nn, r.err, t ++ pt.out ++ r.out, pt.trace ++ r.trace, r.mOut⟩

/-- templateExecute is Template.Execute: a template with no tag slices
writes its original text verbatim. -/
def templateExecute (t : TemplateT) (m : GoMap) : RenderRes :=
  match t.texts with
  | [] => ⟨t.template.length, none, t.template, [], m⟩
  | _ => tmplExecAux t.texts t.tags m

/-- tmplExecStdAux is the tolerant render loop of Template.ExecuteStd:
identical shape, but any error from the tag processor aborts (the
processor itself converts resolution failures into preserved text). -/
def tmplExecStdAux (startTag endTag : String) : List String → List String → GoMap → RenderRes
  | [], _, m => ⟨0, none, "", [], m⟩
  | [t], _, m => ⟨t.length, none, t, [], m⟩
  | t :: _ :: _, [], m =>
    ⟨t.length, some (.plain ("index out of range (tags shorter than texts)")), t, [], m⟩
  | t :: t2 :: ts, tag :: tags, m =>
    let pt := processTagStd tag startTag endTag m
    match pt.err with
    | some e => ⟨t.length + pt.n, some e, t ++ pt.out, pt.trace, pt.mOut⟩
    | none =>
      let r := tmplExecStdAux startTag endTag (t2 :: ts) tags pt.mOut
      ⟨t.length + pt.n + r.nn, r.err, t ++ pt.out ++ r.out, pt.trace ++ r.trace, r.mOut⟩

/-- templateExecuteStd is Template.ExecuteStd. -/
def templateExecuteStd (t : TemplateT) (m : GoMap) : RenderRes :=
  match t.texts with
  | [] => ⟨t.template.length, none, t.template, [], m⟩
  | _ => tmplExecStdAux t.startTag t.endTag t.texts t.tags m

/-- templateExecuteString is Template.ExecuteString (buffer pooling is
transparent). -/
def templateExecuteString (t : TemplateT) (m : GoMap) : String :=
  (templateExecute t m).out

/-- templateExecuteStringStd is Template.ExecuteStringStd. -/
def templateExecuteStringStd (t : TemplateT) (m : GoMap) : String :=
  (templateExecuteStd t m).out

/-- matchesAt tests whether pattern is an initial segment of the
haystack. -/
def matchesAt : List Char → List Char → Bool
  | [], _ => true
  | _ :: _, [] => false
  | p :: ps, h :: hs => p == h && matchesAt ps hs

/-- strIndex mirrors bytes.Index: index of the first occurrence of pat,
with the empty pattern found at 0. -/
def strIndex : List Char → List Char → Option Nat
  | s, pat =>
    if matchesAt pat s then some 0
    else
      match s with
      | [] => none
      | _ :: hs => (strIndex hs pat).map (· + 1)

/-- goExecuteF is the one-shot strict render loop of Execute: find the
start delimiter (none left: write the remainder), write the preceding
literal, find the end delimiter (none: write the start delimiter and
then the remainder), process the tag with the same swallow rule as
Template.Execute, and continue after the end delimiter.  Fuel bounds
loop iterations; each iteration consumes at least one character of a
template whose delimiters are non-empty. -/
def goExecuteF : Nat → List Char → String → String → GoMap → RenderRes
  | 0, _, _, _, m => ⟨0, some (.plain ("render fuel exhausted")), "", [], m⟩
  | fuel + 1, s, startTag, endTag, m =>
    match strIndex s startTag.data with
    | none => ⟨s.length, none, String.mk s, [], m⟩
    | some n =>
      let pre := String.mk (s.take n)
      let s1 := s.drop (n + startTag.length)
      match strIndex s1 endTag.data with
      | none => ⟨n + startTag.length + s1.length, none, pre ++ startTag ++ String.mk s1, [], m⟩
      | some n2 =>
        let tag := String.mk (s1.take n2)
        let pt := processTag tag m
        match pt.err with
        | some e =>
          if isFunctionCall tag || !e.varNF then
            ⟨n + pt.n, some e, pre ++ pt.out, pt.trace, pt.mOut⟩
          else
            let r := goExecuteF fuel (s1.drop (n2 + endTag.length)) startTag endTag pt.mOut
            ⟨n + pt.n + r.nn, r.err, pre ++ pt.out ++ r.out, pt.trace ++ r.trace, r.mOut⟩
        | none =>
          let r := goExecuteF fuel (s1.drop (n2 + endTag.length)) startTag endTag pt.mOut
          ⟨n + pt.n + r.nn, r.err, pre ++ pt.out ++ r.out, pt.trace ++ r.trace, r.mOut⟩

/-- goExecute is the one-shot strict Execute entry point. -/
def goExecute (template startTag endTag : String) (m : GoMap) : RenderRes :=
  goExecuteF (template.length + 1) template.data startTag endTag m

/-- goExecuteStdF is the one-shot tolerant render loop of ExecuteStd. -/
def goExecuteStdF : Nat → List Char → String → String → GoMap → RenderRes
  | 0, _, _, _, m => ⟨0, some (.plain ("render fuel exhausted")), "", [], m⟩
  | fuel + 1, s, startTag, endTag, m =>
    match strIndex s startTag.data with
    | none => ⟨s.length, none, String.mk s, [], m⟩
    | some n =>
      let pre := String.mk (s.take n)
      let s1 := s.drop (n + startTag.length)
      match strIndex s1 endTag.data with
      | none => ⟨n + startTag.length + s1.length, none, pre ++ startTag ++ String.mk s1, [], m⟩
      | some n2 =>
        let tag := String.mk (s1.take n2)
        let pt := processTagStd tag startTag endTag m
        match pt.err with
        | some e => ⟨n + pt.n, some e, pre ++ pt.out, pt.trace, pt.mOut⟩
        | none =>
          let r := goExecuteStdF fuel (s1.drop (n2 + endTag.length)) startTag endTag pt.mOut
          ⟨n + pt.n + r.nn, r.err, pre ++ pt.out ++ r.out, pt.trace ++ r.trace, r.mOut⟩

/-- goExecuteStd is the one-shot tolerant ExecuteStd entry point. -/
def goExecuteStd (template startTag endTag : String) (m : GoMap) : RenderRes :=
  goExecuteStdF (template.length + 1) template.data startTag endTag m

/-- goExecuteString is ExecuteString. -/
def goExecuteString (template startTag endTag : String) (m : GoMap) : String :=
  (goExecute template startTag endTag m).out

/-- goExecuteStringStd is ExecuteStringStd. -/
def goExecuteStringStd (template startTag endTag : String) (m : GoMap) : String :=
  (goExecuteStd template startTag endTag m).out

/-! ## Validate (template.go) -/

/-- existsFuncNamed is Validate's scan for a non-nil function value
bound to the given name. -/
def existsFuncNamed (m : GoMap) (name : String) : Bool :=
  m.entries.any (fun kv => !kv.2.isNull && kv.2.isFunc && kv.1 == name)

/-- validateTags is Validate's per-tag loop: a function-call tag must
parse and find a function binding of its name; an expression tag is
skipped; a plain tag must be present in the map. -/
def validateTags : List String → GoMap → Option GoErr
  | [], _ => none
  | tag :: rest, m =>
    if isFunctionCall tag then
      match parseFunctionCall tag with
      | .error e => some (GoErr.wrap ("invalid function call " ++ goQuote tag ++ ": ") e)
      | .ok fc =>
        if !existsFuncNamed m fc.name then
          some (.plain ("unresolved function " ++ goQuote fc.name ++ " in tag " ++ goQuote tag))
        else validateTags rest m
    else if isExpression tag then validateTags rest m
    else
      match m.lookup tag with
      | none => some (.plain ("unresolved tag " ++ goQuote tag))
      | some _ => validateTags rest m

/-- templateValidate is Template.Validate: a nil map fails whenever any
tag exists and succeeds on a tag-free template; otherwise the per-tag
loop runs. -/
def templateValidate (tags : List String) (m : GoMap) : Option GoErr :=
  match m with
  | .nil =>
    match tags with
    | [] => none
    | t :: _ => some (.plain ("unresolved tag " ++ goQuote t ++ ": nil map provided"))
  | .mk _ => validateTags tags m

/-! ## Typed Eval (eval.go) -/

/-- EvalTy enumerates the type parameters of Eval exercised here. -/
inductive EvalTy where
  | int
  | float
  | str
  | bool

/-- convertToType is Eval's result coercion: an exact dynamic-type
match passes through, then per-kind conversion (string renders any
value; int and float truncate and parse with failures reported; bool
applies truthiness). -/
def convertToType (ty : EvalTy) (val : Value) : Except GoErr Value :=
  match ty with
  | .str => .ok (.str (goToString val))
  | .int =>
    match val with
    | .int n => .ok (.int n)
    | .float q => .ok (.int (truncQ q))
    | .str s =>
      match goAtoi s with
      | some n => .ok (.int n)
      | none => .error (.plain ("cannot convert string " ++ goQuote s ++ " to int"))
    | .bool b => .ok (.int (if b then 1 else 0))
    | _ => .error (.plain ("cannot convert to int"))
  | .float =>
    match val with
    | .float q => .ok (.float q)
    | .int n => .ok (.float (n : Rat))
    | .str s =>
      match goParseFloat s with
      | some q => .ok (.float q)
      | none => .error (.plain ("cannot convert string " ++ goQuote s ++ " to float"))
    | .bool b => .ok (.float (if b then 1 else 0))
    | _ => .error (.plain ("cannot convert to float"))
  | .bool => .ok (.bool (toBool val))

/-- goEval is the typed Eval entry point: classify the string as a
function call, expression, or plain variable, evaluate it, convert the
scalar result.  On error Go returns the zero value of T alongside the
error; the model carries the error alone. -/
def goEval (ty : EvalTy) (expression : String) (m : GoMap) : EvalRes Value :=
  if isFunctionCall expression then
    match parseFunctionCall expression with
    | .error e => resErr e m
    | .ok fc =>
      resBind (executeF (evalFuel expression) m fc m) (fun v m1 =>
        match convertToType ty v with
        | .error e => resErr e m1
        | .ok v2 => resOk v2 m1)
  else if isExpression expression then
    resBind (evalExpression expression m) (fun v m1 =>
      match convertToType ty v with
      | .error e => resErr e m1
      | .ok v2 => resOk v2 m1)
  else
    match m.lookup expression with
    | some val =>
      (match convertToType ty val with
       | .error e => resErr e m
       | .ok v2 => resOk v2 m)
    | none => resErr (.varNotFound expression) m

/-! ## State preservation: the engine never writes the bindings map -/

/-- resState projects the threaded bindings map out of a result. -/
def resState (r : EvalRes α) : GoMap := r.2.2

@[simp] theorem resState_resOk (a : α) (m : GoMap) : resState (resOk a m) = m := rfl

@[simp] theorem resState_resErr (e : GoErr) (m : GoMap) :
    resState (resErr (α := α) e m) = m := rfl

@[simp] theorem resState_resTag (n : String) (r : EvalRes α) :
    resState (resTag n r) = resState r := rfl

theorem resState_resBind {r : EvalRes α} {f : α → GoMap → EvalRes β} {m : GoMap}
    (h1 : resState r = m) (h2 : ∀ a m', resState (f a m') = m') :
    resState (resBind r f) = m := by
  unfold resBind
  match r with
  | (.error e, tr, m0) => exact h1
  | (.ok a, tr, m0) =>
    simp only
    have := h2 a m0
    simp only [resState] at h1 this ⊢
    subst h1
    match hf : f a m0 with
    | (e2, tr2, m2) =>
      rw [hf] at this
      exact this

@[simp] theorem resState_callFn (name : String) (f : FuncVal) (args : List Value) (m : GoMap) :
    resState (callFn name f args m) = m := by
  unfold callFn resState
  split
  · rfl
  · split
    · rfl
    · split <;> rfl

theorem evalState (fuel : Nat) :
    (∀ funcs fc m, resState (executeF fuel funcs fc m) = m) ∧
    (∀ funcs args m, resState (execArgsF fuel funcs args m) = m) ∧
    (∀ funcs a m, resState (execArgF fuel funcs a m) = m) ∧
    (∀ s m, resState (evalExpressionF fuel s m) = m) ∧
    (∀ ts stack m, resState (evaluatePostfixF fuel ts stack m) = m) := by
  induction fuel with
  | zero => exact ⟨fun _ _ _ => rfl, fun _ _ _ => rfl, fun _ _ _ => rfl,
      fun _ _ => rfl, fun _ _ _ => rfl⟩
  | succ fuel ih =>
    obtain ⟨ihExec, ihArgs, ihArg, ihExpr, ihPost⟩ := ih
    have hexec : ∀ funcs fc m, resState (executeF (fuel + 1) funcs fc m) = m := by
      intro funcs fc m
      rw [executeF]
      cases hl : funcs.lookup fc.name with
      | none => rfl
      | some v =>
        cases v with
        | func f =>
          refine resState_resBind (ihArgs funcs fc.args m) ?_
          intro args m1
          dsimp only
          cases hv : f.variadic with
          | true =>
            refine resState_resBind (resState_callFn _ _ _ _) ?_
            intro ret m2
            cases interpretRet ret with
            | error e => rfl
            | ok v2 => rfl
          | false =>
            cases hc : args.length != f.numIn with
            | true => rfl
            | false =>
              refine resState_resBind (resState_callFn _ _ _ _) ?_
              intro ret m2
              cases interpretRet ret with
              | error e => rfl
              | ok v2 => rfl
        | int n => rfl
        | float q => rfl
        | str s => rfl
        | bool b => rfl
        | bytes b => rfl
        | null => rfl
    have harg : ∀ funcs a m, resState (execArgF (fuel + 1) funcs a m) = m := by
      intro funcs a m
      cases a with
      | lit s => rfl
      | str s =>
        cases m with
        | nil => rfl
        | mk es =>
          simp only [execArgF]
          cases hl : (GoMap.mk es).lookup s with
          | some val => rfl
          | none =>
            cases hv : isLikelyVariable s with
            | true => rfl
            | false => rfl
      | int n => rfl
      | float q => rfl
      | bool b => rfl
      | call name args => exact ihExec funcs ⟨name, args⟩ m
      | expr e => exact ihExpr e m
    have hargs : ∀ funcs args m, resState (execArgsF (fuel + 1) funcs args m) = m := by
      intro funcs args m
      cases args with
      | nil => rfl
      | cons a rest =>
        refine resState_resBind (ihArg funcs a m) ?_
        intro v m1
        dsimp only
        refine resState_resBind (ihArgs funcs rest m1) ?_
        intro vs m2
        rfl
    have hpost : ∀ ts stack m, resState (evaluatePostfixF (fuel + 1) ts stack m) = m := by
      intro ts stack m
      cases ts with
      | nil =>
        cases stack with
        | nil => rfl
        | cons v rest =>
          cases rest with
          | nil => rfl
          | cons w r2 => rfl
      | cons t rest =>
        cases t with
        | num s =>
          simp only [evaluatePostfixF]
          cases hd : s.data.any (fun c => c == '.') with
          | true =>
            cases hq : goParseFloat s with
            | some q => exact ihPost _ _ _
            | none => rfl
          | false =>
            cases hq : goAtoi s with
            | some n => exact ihPost _ _ _
            | none => rfl
        | str s => exact ihPost _ _ _
        | fcall s =>
          simp only [evaluatePostfixF]
          cases hp : parseFunctionCall s with
          | error e => rfl
          | ok fc =>
            refine resState_resBind (ihExec m fc m) ?_
            intro v m1
            exact ihPost _ _ _
        | ident s =>
          simp only [evaluatePostfixF]
          cases hl : m.lookup s with
          | none =>
            cases hv : isLikelyVariable s with
            | true => rfl
            | false => exact ihPost _ _ _
          | some val =>
            cases val with
            | func f =>
              obtain ⟨ni, va, sts, tf, cl⟩ := f
              cases stack with
              | nil => exact ihPost _ _ _
              | cons top stk =>
                cases top with
                | str t0 =>
                  cases sts with
                  | some g => exact (resState_resTag s _).trans (ihPost _ _ _)
                  | none => exact ihPost _ _ _
                | int n => exact ihPost _ _ _
                | float q => exact ihPost _ _ _
                | bool b => exact ihPost _ _ _
                | bytes b => exact ihPost _ _ _
                | null => exact ihPost _ _ _
                | func f2 => exact ihPost _ _ _
            | int n => cases stack with
              | nil => exact ihPost _ _ _
              | cons top stk => exact ihPost _ _ _
            | float q => cases stack with
              | nil => exact ihPost _ _ _
              | cons top stk => exact ihPost _ _ _
            | str s2 => cases stack with
              | nil => exact ihPost _ _ _
              | cons top stk => exact ihPost _ _ _
            | bool b => cases stack with
              | nil => exact ihPost _ _ _
              | cons top stk => exact ihPost _ _ _
            | bytes b => cases stack with
              | nil => exact ihPost _ _ _
              | cons top stk => exact ihPost _ _ _
            | null => cases stack with
              | nil => exact ihPost _ _ _
              | cons top stk => exact ihPost _ _ _
        | op s =>
          cases stack with
          | nil => rfl
          | cons b stk1 =>
            cases stk1 with
            | nil => rfl
            | cons a stk =>
              simp only [evaluatePostfixF]
              cases ha : applyOperator s a b with
              | error e => rfl
              | ok r => exact ihPost _ _ _
        | lparen => exact ihPost _ _ _
        | rparen => exact ihPost _ _ _
    have hexpr : ∀ s m, resState (evalExpressionF (fuel + 1) s m) = m := by
      intro s m
      rw [evalExpressionF]
      cases hf : isFunctionCall s with
      | true =>
        cases hp : parseFunctionCall s with
        | error e => rfl
        | ok fc => exact ihExec m fc m
      | false =>
        cases ht : tokenize s with
        | error e => rfl
        | ok toks =>
          have h2 : resState (match toPostfixGo toks with
              | Except.error e => resErr (α := Value) e m
              | Except.ok post => evaluatePostfixF fuel post [] m) = m := by
            cases hpf : toPostfixGo toks with
            | error e => rfl
            | ok post => exact ihPost _ _ _
          exact h2
    exact ⟨hexec, hargs, harg, hexpr, hpost⟩

theorem executeF_state (fuel : Nat) (funcs : GoMap) (fc : FuncCallT) (m : GoMap) :
    resState (executeF fuel funcs fc m) = m := (evalState fuel).1 funcs fc m

theorem evalExpression_state (s : String) (m : GoMap) :
    resState (evalExpression s m) = m := (evalState (evalFuel s)).2.2.2.1 s m

theorem processTag_state (tag : String) (m : GoMap) : (processTag tag m).mOut = m := by
  unfold processTag
  repeat' split
  all_goals try rfl
  all_goals
    rename_i heq
    first
      | exact (congrArg resState heq).symm.trans (executeF_state _ _ _ _)
      | exact (congrArg resState heq).symm.trans (evalExpression_state _ _)

theorem processTagStd_state (tag startTag endTag : String) (m : GoMap) :
    (processTagStd tag startTag endTag m).mOut = m := by
  unfold processTagStd
  repeat' split
  all_goals try rfl
  all_goals
    rename_i heq
    first
      | exact (congrArg resState heq).symm.trans (executeF_state _ _ _ _)
      | exact (congrArg resState heq).symm.trans (evalExpression_state _ _)

theorem tmplExecAux_state : ∀ (texts tags : List String) (m : GoMap),
    (tmplExecAux texts tags m).mOut = m
  | [], _, _ => rfl
  | [_], _, _ => rfl
  | _ :: _ :: _, [], _ => rfl
  | t :: t2 :: ts, tag :: tags, m => by
    have hpt := processTag_state tag m
    have ih := fun m2 => tmplExecAux_state (t2 :: ts) tags m2
    simp only [tmplExecAux]
    rcases hh : processTag tag m with ⟨n, err, out, tr, mo⟩
    rw [hh] at hpt
    cases err with
    | some e =>
      dsimp only
      cases he : (isFunctionCall tag || !e.varNF) with
      | true => exact hpt
      | false => exact (ih mo).trans hpt
    | none => exact (ih mo).trans hpt

theorem tmplExecStdAux_state (st et : String) : ∀ (texts tags : List String) (m : GoMap),
    (tmplExecStdAux st et texts tags m).mOut = m
  | [], _, _ => rfl
  | [_], _, _ => rfl
  | _ :: _ :: _, [], _ => rfl
  | t :: t2 :: ts, tag :: tags, m => by
    have hpt := processTagStd_state tag st et m
    have ih := fun m2 => tmplExecStdAux_state st et (t2 :: ts) tags m2
    simp only [tmplExecStdAux]
    rcases hh : processTagStd tag st et m with ⟨n, err, out, tr, mo⟩
    rw [hh] at hpt
    cases err with
    | some e => exact hpt
    | none => exact (ih mo).trans hpt

theorem goExecuteF_state : ∀ (fuel : Nat) (s : List Char) (a b : String) (m : GoMap),
    (goExecuteF fuel s a b m).mOut = m
  | 0, _, _, _, _ => rfl
  | fuel + 1, s, a, b, m => by
    simp only [goExecuteF]
    cases h1 : strIndex s a.data with
    | none => rfl
    | some n =>
      dsimp only
      cases h2 : strIndex ((s.drop (n + a.length))) b.data with
      | none => rfl
      | some n2 =>
        dsimp only
        have hpt := processTag_state (String.mk ((s.drop (n + a.length)).take n2)) m
        have ih := fun m2 => goExecuteF_state fuel ((s.drop (n + a.length)).drop (n2 + b.length)) a b m2
        rcases hh : processTag (String.mk ((s.drop (n + a.length)).take n2)) m
          with ⟨nn, err, out, tr, mo⟩
        rw [hh] at hpt
        cases err with
        | some e =>
          dsimp only
          cases he : (isFunctionCall (String.mk ((s.drop (n + a.length)).take n2)) || !e.varNF) with
          | true => exact hpt
          | false => exact (ih mo).trans hpt
        | none => exact (ih mo).trans hpt

theorem goExecuteStdF_state : ∀ (fuel : Nat) (s : List Char) (a b : String) (m : GoMap),
    (goExecuteStdF fuel s a b m).mOut = m
  | 0, _, _, _, _ => rfl
  | fuel + 1, s, a, b, m => by
    simp only [goExecuteStdF]
    cases h1 : strIndex s a.data with
    | none => rfl
    | some n =>
      dsimp only
      cases h2 : strIndex ((s.drop (n + a.length))) b.data with
      | none => rfl
      | some n2 =>
        dsimp only
        have hpt := processTagStd_state (String.mk ((s.drop (n + a.length)).take n2)) a b m
        have ih := fun m2 => goExecuteStdF_state fuel ((s.drop (n + a.length)).drop (n2 + b.length)) a b m2
        rcases hh : processTagStd (String.mk ((s.drop (n + a.length)).take n2)) a b m
          with ⟨nn, err, out, tr, mo⟩
        rw [hh] at hpt
        cases err with
        | some e => exact hpt
        | none => exact (ih mo).trans hpt

theorem goEval_state (ty : EvalTy) (expr0 : String) (m : GoMap) :
    resState (goEval ty expr0 m) = m := by
  unfold goEval
  cases hf : isFunctionCall expr0 with
  | true =>
    cases hp : parseFunctionCall expr0 with
    | error er => rfl
    | ok fc =>
      refine resState_resBind (executeF_state _ _ _ _) ?_
      intro v m1
      dsimp only
      cases convertToType ty v with
      | error er => rfl
      | ok v2 => rfl
  | false =>
    cases he : isExpression expr0 with
    | true =>
      refine resState_resBind (evalExpression_state _ _) ?_
      intro v m1
      dsimp only
      cases convertToType ty v with
      | error er => rfl
      | ok v2 => rfl
    | false =>
      cases hl : m.lookup expr0 with
      | none => rfl
      | some val =>
        dsimp only
        cases convertToType ty val with
        | error er => rfl
        | ok v2 => rfl

/-! ## Claim theorems -/

/-- C8: the bindings map supplied to a render or Eval operation is
never mutated by the engine: the threaded map state coming out of the
one-shot strict and tolerant renders, the compiled-template renders,
and the typed Eval equals the map that went in, for every template,
delimiter pair and bindings map.  The render-to-string variants are
output projections of these same runs. -/
theorem claim_C8_bindings_never_mutated :
    (∀ template st et m, (goExecute template st et m).mOut = m) ∧
    (∀ template st et m, (goExecuteStd template st et m).mOut = m) ∧
    (∀ t m, (templateExecute t m).mOut = m) ∧
    (∀ t m, (templateExecuteStd t m).mOut = m) ∧
    (∀ ty e m, resState (goEval ty e m) = m) := by
  refine ⟨?_, ?_, ?_, ?_, ?_⟩
  · intro template st et m
    exact goExecuteF_state _ _ _ _ _
  · intro template st et m
    exact goExecuteStdF_state _ _ _ _ _
  · intro t m
    unfold templateExecute
    cases ht : t.texts with
    | nil => rfl
    | cons x xs => exact tmplExecAux_state _ _ _
  · intro t m
    unfold templateExecuteStd
    cases ht : t.texts with
    | nil => rfl
    | cons x xs => exact tmplExecStdAux_state _ _ _ _ _
  · intro ty e m
    exact goEval_state _ _ _

/-- C4: division and modulo by zero fail with the DivisionByZero
errors: the typed Eval of "1/0" at float64 and of "1%0" at int both
return those errors, and for every pair of numeric operands with a zero
right operand the / and % operators fail the same way. -/
theorem claim_C4_division_by_zero :
    ((goEval .float "1/0" (.mk [])).1 = .error (.plain ("division by zero"))) ∧
    ((goEval .int "1%0" (.mk [])).1 = .error (.plain ("modulo by zero"))) ∧
    (∀ a b : Value, isNumeric a = true → isNumeric b = true → toFloat64 b = 0 →
      applyOperator "/" a b = .error (.plain ("division by zero")) ∧
      applyOperator "%" a b = .error (.plain ("modulo by zero"))) := by
  refine ⟨by rfl, by rfl, ?_⟩
  intro a b ha hb hz
  constructor <;> simp [applyOperator, ha, hb, hz]

/-- C4 witness: the operand-level statement applied at 1 and 0. -/
theorem claim_C4_division_by_zero_witness :
    applyOperator "/" (.int 1) (.int 0) = .error (.plain ("division by zero")) ∧
    applyOperator "%" (.int 1) (.int 0) = .error (.plain ("modulo by zero")) :=
  claim_C4_division_by_zero.2.2 (.int 1) (.int 0) (by decide) (by decide) (by decide)

theorem powLoop_eq (a : Rat) : ∀ (n : Nat) (acc : Rat), powLoop a n acc = acc * a ^ n := by
  intro n
  induction n with
  | zero => intro acc; simp [powLoop]
  | succ k ih =>
    intro acc
    rw [powLoop, ih (acc * a), pow_succ]
    ring

/-- C9: the ** operator computes repeated multiplication governed by
the truncation toward zero of the exponent: pow a b equals a raised to
the truncated exponent clamped at zero, so whenever int(b) is zero or
negative (all negative exponents and fractional exponents below one)
the result is exactly 1; applyOperator dispatches ** to pow on the
float64 images of any two numeric operands. -/
theorem claim_C9_power_truncates :
    (∀ a b : Rat, pow a b = a ^ (truncQ b).toNat) ∧
    (∀ a b : Rat, truncQ b ≤ 0 → pow a b = 1) ∧
    (∀ va vb : Value, isNumeric va = true → isNumeric vb = true →
      applyOperator "**" va vb = .ok (.float (pow (toFloat64 va) (toFloat64 vb)))) := by
  have hbase : ∀ a b : Rat, pow a b = a ^ (truncQ b).toNat := by
    intro a b
    unfold pow
    rw [powLoop_eq, one_mul]
  refine ⟨hbase, ?_, ?_⟩
  · intro a b hb
    rw [hbase, Int.toNat_of_nonpos hb, pow_zero]
  · intro va vb ha hb
    simp [applyOperator, ha, hb]

/-- C9 witness: applied at 2 ** -2 (result 1) and at the operands 2
and 3. -/
theorem claim_C9_power_truncates_witness :
    pow 2 (-2 : Rat) = 1 ∧
    applyOperator "**" (.int 2) (.int 3)
      = .ok (.float (pow (toFloat64 (.int 2)) (toFloat64 (.int 3)))) :=
  ⟨claim_C9_power_truncates.2.1 2 (-2) (by decide),
   claim_C9_power_truncates.2.2 (.int 2) (.int 3) (by decide) (by decide)⟩

/-- C3: expression evaluation respects the precedence table with
left-associative operators: for all numeric values bound to a, b and c,
evaluating "a + b * c" yields a + (b*c), evaluating "(a+b)*c" yields
(a+b)*c, and the chained power "a ** b ** c" evaluates left-to-right
as (a ** b) ** c (all arithmetic on the operands' float64 images). -/
theorem claim_C3_precedence (va vb vc : Value)
    (ha : isNumeric va = true) (hb : isNumeric vb = true) (hc : isNumeric vc = true) :
    ((evalExpression "a + b * c" (GoMap.mk [("a", va), ("b", vb), ("c", vc)])).1
      = .ok (.float (toFloat64 va + toFloat64 vb * toFloat64 vc))) ∧
    ((evalExpression "(a+b)*c" (GoMap.mk [("a", va), ("b", vb), ("c", vc)])).1
      = .ok (.float ((toFloat64 va + toFloat64 vb) * toFloat64 vc))) ∧
    ((evalExpression "a ** b ** c" (GoMap.mk [("a", va), ("b", vb), ("c", vc)])).1
      = .ok (.float (pow (pow (toFloat64 va) (toFloat64 vb)) (toFloat64 vc)))) := by
  cases va <;> cases vb <;> cases vc <;>
    simp only [isNumeric, Bool.false_eq_true] at ha hb hc <;>
    exact ⟨rfl, rfl, rfl⟩

/-- C3 witness: the three grouped results at 2, 3 and 4. -/
theorem claim_C3_precedence_witness :
    ((evalExpression "a + b * c" (GoMap.mk [("a", .int 2), ("b", .int 3), ("c", .int 4)])).1
      = .ok (.float (toFloat64 (.int 2) + toFloat64 (.int 3) * toFloat64 (.int 4)))) ∧
    ((evalExpression "(a+b)*c" (GoMap.mk [("a", .int 2), ("b", .int 3), ("c", .int 4)])).1
      = .ok (.float ((toFloat64 (.int 2) + toFloat64 (.int 3)) * toFloat64 (.int 4)))) :=
  ⟨(claim_C3_precedence (.int 2) (.int 3) (.int 4) rfl rfl rfl).1,
   (claim_C3_precedence (.int 2) (.int 3) (.int 4) rfl rfl rfl).2.1⟩

theorem mapParseArgs_length : ∀ (fuel : Nat) (segs : List String) (args : List Arg),
    mapParseArgs fuel segs = .ok args → args.length = segs.length
  | _, [], args => by
    intro h
    simp only [mapParseArgs] at h
    cases h
    rfl
  | 0, _ :: _, args => by
    intro h
    simp only [mapParseArgs] at h
    cases h
  | fuel + 1, a :: rest, args => by
    intro h
    simp only [mapParseArgs] at h
    cases hp : parseArgF fuel a with
    | error e => rw [hp] at h; cases h
    | ok arg =>
      rw [hp] at h
      cases hm : mapParseArgs fuel rest with
      | error e => rw [hm] at h; cases h
      | ok args2 =>
        rw [hm] at h
        cases h
        simp only [List.length_cons]
        rw [mapParseArgs_length fuel rest args2 hm]

/-- C10: an argument that is empty after trimming — from consecutive,
leading or trailing commas — is silently skipped rather than rejected:
"f(1,,2)" parses as the two-argument call f(1, 2), and in general the
argument count produced by parseArgs (the one the arity check sees) is
the number of comma chunks that remain non-empty after trimming. -/
theorem claim_C10_empty_args_skipped :
    (parseFunctionCall "f(1,,2)" = .ok ⟨"f", [.int 1, .int 2]⟩) ∧
    (∀ (fuel : Nat) (s : String) (args : List Arg), parseArgsF (fuel + 1) s = .ok args →
      ∃ segs, splitArgs s = .ok segs ∧
        args.length = ((segs.map goTrim).filter (fun t => t != "")).length) := by
  refine ⟨by rfl, ?_⟩
  intro fuel s args h
  simp only [parseArgsF] at h
  cases hs : splitArgs s with
  | error e => rw [hs] at h; cases h
  | ok segs =>
    rw [hs] at h
    exact ⟨segs, rfl, mapParseArgs_length fuel _ args h⟩

/-- C10 witness: the general count statement applied to the argument
text "1,,2". -/
theorem claim_C10_empty_args_skipped_witness :
    ∃ segs, splitArgs "1,,2" = .ok segs ∧
      ([Arg.int 1, Arg.int 2].length = ((segs.map goTrim).filter (fun t => t != "")).length) :=
  claim_C10_empty_args_skipped.2 9 "1,,2" [Arg.int 1, Arg.int 2] (by rfl)

/-- C7: Validate fails on the first plain tag absent from the map and
on the first function-call tag whose name has no function binding
(absent or bound to a non-function both leave existsFuncNamed false);
a tag classified as an expression is skipped without deep validation;
resolvable tags continue to the rest; and a template with no tags
validates even against the nil map (while the nil map fails as soon as
any tag exists, regardless of its kind). -/
theorem claim_C7_validate :
    (∀ es tag rest fc, isFunctionCall tag = true → parseFunctionCall tag = .ok fc →
      existsFuncNamed (GoMap.mk es) fc.name = false →
      validateTags (tag :: rest) (GoMap.mk es)
        = some (.plain ("unresolved function " ++ goQuote fc.name ++ " in tag " ++ goQuote tag))) ∧
    (∀ es tag rest fc, isFunctionCall tag = true → parseFunctionCall tag = .ok fc →
      existsFuncNamed (GoMap.mk es) fc.name = true →
      validateTags (tag :: rest) (GoMap.mk es) = validateTags rest (GoMap.mk es)) ∧
    (∀ es tag rest, isFunctionCall tag = false → isExpression tag = true →
      validateTags (tag :: rest) (GoMap.mk es) = validateTags rest (GoMap.mk es)) ∧
    (∀ es tag rest, isFunctionCall tag = false → isExpression tag = false →
      GoMap.lookup (GoMap.mk es) tag = none →
      validateTags (tag :: rest) (GoMap.mk es)
        = some (.plain ("unresolved tag " ++ goQuote tag))) ∧
    (∀ es tag rest v, isFunctionCall tag = false → isExpression tag = false →
      GoMap.lookup (GoMap.mk es) tag = some v →
      validateTags (tag :: rest) (GoMap.mk es) = validateTags rest (GoMap.mk es)) ∧
    (∀ m, templateValidate [] m = none) ∧
    (∀ t rest, templateValidate (t :: rest) GoMap.nil
      = some (.plain ("unresolved tag " ++ goQuote t ++ ": nil map provided"))) := by
  refine ⟨?_, ?_, ?_, ?_, ?_, ?_, ?_⟩
  · intro es tag rest fc hfc hp hex
    simp [validateTags, hfc, hp, hex]
  · intro es tag rest fc hfc hp hex
    simp [validateTags, hfc, hp, hex]
  · intro es tag rest hfc hex
    simp [validateTags, hfc, hex]
  · intro es tag rest hfc hex hl
    simp [validateTags, hfc, hex, hl]
  · intro es tag rest v hfc hex hl
    simp [validateTags, hfc, hex, hl]
  · intro m
    cases m <;> rfl
  · intro t rest
    rfl

/-- C7 witness: the plain-miss, expression-skip and
unresolved-function statements at concrete tags and the empty map. -/
theorem claim_C7_validate_witness :
    (validateTags ["name"] (GoMap.mk [])
      = some (.plain ("unresolved tag " ++ goQuote "name"))) ∧
    (validateTags ["x + 1"] (GoMap.mk []) = validateTags [] (GoMap.mk [])) ∧
    (validateTags ["f(1)"] (GoMap.mk [])
      = some (.plain ("unresolved function " ++ goQuote "f" ++ " in tag " ++ goQuote "f(1)"))) :=
  ⟨claim_C7_validate.2.2.2.1 [] ("name") [] rfl rfl rfl,
   claim_C7_validate.2.2.1 [] ("x + 1") [] rfl rfl,
   claim_C7_validate.1 [] ("f(1)") [] ⟨"f", [.int 1]⟩ rfl rfl rfl⟩

/-- variableShapedSpec restates the spec's definition of a
variable-shaped bareword: unquoted (not a quoted pair), not
numeric-leading, not a boolean literal, and containing no whitespace or
operator characters. -/
def variableShapedSpec (s : String) : Bool :=
  !(2 ≤ s.data.length &&
     ((s.data.head? == some '"' && s.data.getLast? == some '"') ||
      (s.data.head? == some '\'' && s.data.getLast? == some '\''))) &&
  !(0 < s.data.length && (s.data.head?.getD ' ').isDigit) &&
  !(s == "true" || s == "false") &&
  !(s.data.any isOpOrSpaceChar)

/-- C6: during postfix evaluation an Identifier token resolves as
follows — absent from the bindings and variable-shaped fails with
VariableNotFound; absent and not variable-shaped pushes the
identifier's own text as a string; present as a one-argument
string-to-string function while the stack top is a string applies the
function in place to that top value (recorded in the invocation trace);
in every other situation (non-function binding, a string-to-string
binding over a non-string or empty stack, a function binding that is
not string-to-string) the bound value is pushed.  The code's
variable-shaped test coincides with the spec's four conditions. -/
theorem claim_C6_identifier_resolution (fuel : Nat) (s : String) (rest : List Token)
    (stack : List Value) (m : GoMap) :
    (m.lookup s = none → isLikelyVariable s = true →
      evaluatePostfixF (fuel + 1) (.ident s :: rest) stack m = resErr (.varNotFound s) m) ∧
    (m.lookup s = none → isLikelyVariable s = false →
      evaluatePostfixF (fuel + 1) (.ident s :: rest) stack m
        = evaluatePostfixF fuel rest (Value.str s :: stack) m) ∧
    (∀ f g t0 stk, m.lookup s = some (.func f) → f.strToStr = some g →
      stack = .str t0 :: stk →
      evaluatePostfixF (fuel + 1) (.ident s :: rest) stack m
        = resTag s (evaluatePostfixF fuel rest (Value.str (g t0) :: stk) m)) ∧
    (∀ f top stk, m.lookup s = some (.func f) → stack = top :: stk →
      (∀ t0 : String, top ≠ Value.str t0) →
      evaluatePostfixF (fuel + 1) (.ident s :: rest) stack m
        = evaluatePostfixF fuel rest (Value.func f :: stack) m) ∧
    (∀ val, m.lookup s = some val → val.isFunc = false →
      evaluatePostfixF (fuel + 1) (.ident s :: rest) stack m
        = evaluatePostfixF fuel rest (val :: stack) m) ∧
    (∀ f, m.lookup s = some (.func f) → f.strToStr = none →
      evaluatePostfixF (fuel + 1) (.ident s :: rest) stack m
        = evaluatePostfixF fuel rest (Value.func f :: stack) m) ∧
    (∀ f, m.lookup s = some (.func f) → stack = [] →
      evaluatePostfixF (fuel + 1) (.ident s :: rest) stack m
        = evaluatePostfixF fuel rest (Value.func f :: stack) m) ∧
    (∀ s2 : String, isLikelyVariable s2 = variableShapedSpec s2) := by
  refine ⟨?_, ?_, ?_, ?_, ?_, ?_, ?_, ?_⟩
  · intro h hv
    simp [evaluatePostfixF, h, hv]
  · intro h hv
    simp [evaluatePostfixF, h, hv]
  · intro f g t0 stk h hg hstack
    subst hstack
    simp [evaluatePostfixF, h, hg]
  · intro f top stk h hstack hne
    subst hstack
    cases top with
    | str t0 => exact absurd rfl (hne t0)
    | int n => simp [evaluatePostfixF, h]
    | float q => simp [evaluatePostfixF, h]
    | bool b => simp [evaluatePostfixF, h]
    | bytes b => simp [evaluatePostfixF, h]
    | null => simp [evaluatePostfixF, h]
    | func f2 => simp [evaluatePostfixF, h]
  · intro val h hnf
    cases val with
    | func f => simp [Value.isFunc] at hnf
    | int n => cases stack <;> simp [evaluatePostfixF, h]
    | float q => cases stack <;> simp [evaluatePostfixF, h]
    | str s2 => cases stack <;> simp [evaluatePostfixF, h]
    | bool b => cases stack <;> simp [evaluatePostfixF, h]
    | bytes b => cases stack <;> simp [evaluatePostfixF, h]
    | null => cases stack <;> simp [evaluatePostfixF, h]
  · intro f h hg
    cases stack with
    | nil => simp [evaluatePostfixF, h]
    | cons top stk =>
      cases top <;> simp [evaluatePostfixF, h, hg]
  · intro f h hstack
    subst hstack
    simp [evaluatePostfixF, h]
  · intro s2
    simp only [isLikelyVariable, variableShapedSpec]
    split
    next h1 => rw [h1]; rfl
    next h1 =>
      rw [Bool.not_eq_true] at h1
      rw [h1]
      split
      next h2 => rw [h2]; rfl
      next h2 =>
        rw [Bool.not_eq_true] at h2
        rw [h2]
        split
        next h3 => rw [h3]; rfl
        next h3 =>
          rw [Bool.not_eq_true] at h3
          rw [h3]
          split
          next h4 => rw [h4]; rfl
          next h4 =>
            rw [Bool.not_eq_true] at h4
            rw [h4]
            rfl

/-- C6 witness: the miss-and-variable-shaped, miss-and-literal,
inline-pipe, and string-to-string-over-non-string-top cases at
concrete inputs. -/
theorem claim_C6_identifier_resolution_witness :
    (evaluatePostfixF 1 [Token.ident ("x")] [] (GoMap.mk [])
      = resErr (.varNotFound ("x")) (GoMap.mk [])) ∧
    (evaluatePostfixF 1 [Token.ident ("false")] [] (GoMap.mk [])
      = evaluatePostfixF 0 [] [Value.str ("false")] (GoMap.mk [])) ∧
    (evaluatePostfixF 1 [Token.ident ("up")]
        [Value.str ("a")] (GoMap.mk [("up", .func ⟨1, false, some (fun t => t ++ "!"), none,
          fun _ => .ok .unit⟩)])
      = resTag ("up") (evaluatePostfixF 0 [] [Value.str ("a!")]
          (GoMap.mk [("up", .func ⟨1, false, some (fun t => t ++ "!"), none,
            fun _ => .ok .unit⟩)]))) ∧
    (evaluatePostfixF 1 [Token.ident ("up")]
        [Value.int 5] (GoMap.mk [("up", .func ⟨1, false, some (fun t => t ++ "!"), none,
          fun _ => .ok .unit⟩)])
      = evaluatePostfixF 0 []
          [Value.func ⟨1, false, some (fun t => t ++ "!"), none, fun _ => .ok .unit⟩,
            Value.int 5]
          (GoMap.mk [("up", .func ⟨1, false, some (fun t => t ++ "!"), none,
            fun _ => .ok .unit⟩)])) :=
  ⟨(claim_C6_identifier_resolution 0 ("x") [] [] (GoMap.mk [])).1 rfl rfl,
   (claim_C6_identifier_resolution 0 ("false") [] [] (GoMap.mk [])).2.1 rfl rfl,
   (claim_C6_identifier_resolution 0 ("up") []
      [Value.str ("a")] (GoMap.mk [("up", .func ⟨1, false, some (fun t => t ++ "!"), none,
        fun _ => .ok .unit⟩)])).2.2.1
     ⟨1, false, some (fun t => t ++ "!"), none, fun _ => .ok .unit⟩
     (fun t => t ++ "!") ("a") [] rfl rfl rfl,
   (claim_C6_identifier_resolution 0 ("up") []
      [Value.int 5] (GoMap.mk [("up", .func ⟨1, false, some (fun t => t ++ "!"), none,
        fun _ => .ok .unit⟩)])).2.2.2.1
     ⟨1, false, some (fun t => t ++ "!"), none, fun _ => .ok .unit⟩
     (Value.int 5) [] rfl rfl (fun _ h => Value.noConfusion h)⟩

/-- C5 counterexample: the tag text "false && rhs()" is classified as
a function call (its first parenthesis sits at a positive index and a
closing parenthesis ends it), so evaluation rejects it with an invalid
function name before any expression machinery runs: rhs is never
invoked (empty invocation trace), refuting "invokes rhs exactly
once". -/
theorem claim_C5_short_circuit_counterexample :
    isFunctionCall ("false && rhs()") = true ∧
    ((goEval .bool ("false && rhs()")
        (GoMap.mk [("rhs", .func ⟨0, false, none, none, fun _ => .ok (.one (.bool true))⟩)])).1
      = .error (.plain ("invalid function name: false && rhs"))) ∧
    ((goEval .bool ("false && rhs()")
        (GoMap.mk [("rhs", .func ⟨0, false, none, none, fun _ => .ok (.one (.bool true))⟩)])).2.1
      = ([] : List String)) :=
  ⟨rfl, rfl, rfl⟩

/-- truthySpec restates the spec's truthiness rule: a bool is itself;
a number is true iff nonzero; a string is true iff non-empty and not
exactly "0" or "false"; anything else is false. -/
def truthySpec : Value → Bool
  | .bool b => b
  | .int n => decide (n ≠ 0)
  | .float q => decide (q ≠ 0)
  | .str s => s != "" && s != "0" && s != "false"
  | _ => false

/-- C5 (amended): the logical operators do not short-circuit — both
operands are always fully evaluated before the operator applies, each
coerced by the truthiness rule — but the literal tag "false && rhs()"
is call-shaped and rejected before evaluation (see the counterexample);
an equivalent expression that is not call-shaped, "(false) && rhs()",
invokes the bound function rhs exactly once even though the left
operand is falsy, and yields false. -/
theorem claim_C5_no_short_circuit (v : Prim) :
    ((evalExpression ("(false) && rhs()")
        (GoMap.mk [("rhs", .func ⟨0, false, none, none, fun _ => .ok (.one v)⟩)])).2.1
      = [("rhs")]) ∧
    ((evalExpression ("(false) && rhs()")
        (GoMap.mk [("rhs", .func ⟨0, false, none, none, fun _ => .ok (.one v)⟩)])).1
      = .ok (.bool false)) ∧
    (∀ a b, applyOperator "&&" a b = .ok (.bool (toBool a && toBool b))) ∧
    (∀ a b, applyOperator "||" a b = .ok (.bool (toBool a || toBool b))) ∧
    (∀ w, toBool w = truthySpec w) := by
  refine ⟨rfl, rfl, fun a b => rfl, fun a b => rfl, ?_⟩
  intro w
  cases w with
  | bool b => rfl
  | int n =>
    show ((n : Rat) != 0) = decide (n ≠ 0)
    simp only [bne, decide_not]
    congr 1
    rw [Bool.eq_iff_iff]
    simp [beq_iff_eq, Int.cast_eq_zero]
  | float q =>
    show ((q : Rat) != 0) = decide (q ≠ 0)
    simp only [bne, decide_not]
    congr 1
  | str s => rfl
  | bytes b => rfl
  | null => rfl
  | func f => rfl

/-- C2 counterexample: the expression tag "x + 1" with x unbound fails
with an error wrapping errVariableNotFound; strict-mode rendering
swallows it because the tag is not a function call, continues with the
rest of the template, and returns no error — refuting "expression
errors abort the render immediately". -/
theorem claim_C2_strict_error_counterexample :
    (isExpression ("x + 1") = true) ∧
    ((processTag ("x + 1") (GoMap.mk [])).err = some (.varNotFound ("x"))) ∧
    ((goExecute ("\x7b\x7bx + 1\x7d\x7d!") ("\x7b\x7b") ("\x7d\x7d") (GoMap.mk [])).err = none) ∧
    ((goExecute ("\x7b\x7bx + 1\x7d\x7d!") ("\x7b\x7b") ("\x7d\x7d") (GoMap.mk [])).out = ("!")) :=
  ⟨rfl, rfl, rfl, rfl⟩

/-- C2 (amended): in strict mode a failing tag aborts the render with
the partial output written so far exactly when the tag is a function
call or its error does not wrap errVariableNotFound; every failure
wrapping errVariableNotFound on a non-function-call tag — a
bare-variable miss, but equally a variable miss inside an expression —
is swallowed: rendering continues with the remaining template.  A
bare-variable miss itself yields the wrapped error with nothing
written for the tag. -/
theorem claim_C2_strict_error_policy (t t2 : String) (ts : List String) (tag : String)
    (tags : List String) (m : GoMap) :
    (∀ e, (processTag tag m).err = some e → (isFunctionCall tag = true ∨ e.varNF = false) →
      tmplExecAux (t :: t2 :: ts) (tag :: tags) m
        = ⟨t.length + (processTag tag m).n, some e, t ++ (processTag tag m).out,
           (processTag tag m).trace, m⟩) ∧
    (∀ e, (processTag tag m).err = some e → isFunctionCall tag = false → e.varNF = true →
      ((tmplExecAux (t :: t2 :: ts) (tag :: tags) m).err
          = (tmplExecAux (t2 :: ts) tags m).err) ∧
      ((tmplExecAux (t :: t2 :: ts) (tag :: tags) m).out
          = t ++ (processTag tag m).out ++ (tmplExecAux (t2 :: ts) tags m).out)) ∧
    (isFunctionCall tag = false → isExpression tag = false → m.lookup tag = none →
      (processTag tag m).err = some (.varNotFound tag) ∧
      (processTag tag m).out = ("") ∧ (processTag tag m).n = 0 ∧
      (GoErr.varNotFound tag).varNF = true) := by
  refine ⟨?_, ?_, ?_⟩
  · intro e he hcond
    have hst := processTag_state tag m
    have hcond2 : (isFunctionCall tag || !e.varNF) = true := by
      rcases hcond with h | h
      · simp [h]
      · simp [h]
    simp only [tmplExecAux]
    rcases hh : processTag tag m with ⟨n, err, out, tr, mo⟩
    rw [hh] at he hst
    dsimp only at he hst
    subst he
    subst hst
    dsimp only
    rw [hcond2]
    rfl
  · intro e he hfc hv
    have hst := processTag_state tag m
    have hcond2 : (isFunctionCall tag || !e.varNF) = false := by simp [hfc, hv]
    simp only [tmplExecAux]
    rcases hh : processTag tag m with ⟨n, err, out, tr, mo⟩
    rw [hh] at he hst
    dsimp only at he hst
    subst he
    subst hst
    dsimp only
    rw [hcond2]
    exact ⟨rfl, rfl⟩
  · intro hfc hex hl
    refine ⟨?_, ?_, ?_, rfl⟩ <;> simp [processTag, hfc, hex, hl]

/-- C2 witness: the abort statement at an unknown-function tag and the
bare-miss statement at an unbound plain tag. -/
theorem claim_C2_strict_error_policy_witness :
    (tmplExecAux [("A"), ("B")] [("f(1)")] (GoMap.mk [])
      = ⟨("A").length + (processTag ("f(1)") (GoMap.mk [])).n,
         some (.plain ("function not found: f")),
         ("A") ++ (processTag ("f(1)") (GoMap.mk [])).out,
         (processTag ("f(1)") (GoMap.mk [])).trace, GoMap.mk []⟩) ∧
    ((processTag ("name") (GoMap.mk [])).err = some (.varNotFound ("name"))) :=
  ⟨(claim_C2_strict_error_policy ("A") ("B") [] ("f(1)") [] (GoMap.mk [])).1
     (.plain ("function not found: f")) rfl (Or.inl rfl),
   ((claim_C2_strict_error_policy ("A") ("B") [] ("name") [] (GoMap.mk [])).2.2
     rfl rfl rfl).1⟩

theorem lookupEntries_filter_isFunc :
    ∀ (es : List (String × Value)) (k : String) (v : Value),
    lookupEntries (es.filter (fun kv => !kv.2.isNull && kv.2.isFunc)) k = some v →
    ∃ f, v = Value.func f := by
  intro es
  induction es with
  | nil =>
    intro k v h
    simp [lookupEntries] at h
  | cons kv rest ih =>
    obtain ⟨k1, v1⟩ := kv
    intro k v h
    rw [List.filter_cons] at h
    by_cases hp : (!(Value.isNull v1) && Value.isFunc v1) = true
    · rw [if_pos (by exact hp)] at h
      rw [lookupEntries] at h
      by_cases hk : (k1 == k) = true
      · rw [if_pos hk] at h
        cases h
        have hf : v1.isFunc = true := by
          rw [Bool.and_eq_true] at hp
          exact hp.2
        cases v1 with
        | func f => exact ⟨f, rfl⟩
        | int n => simp [Value.isFunc] at hf
        | float q => simp [Value.isFunc] at hf
        | str s => simp [Value.isFunc] at hf
        | bool b => simp [Value.isFunc] at hf
        | bytes b => simp [Value.isFunc] at hf
        | null => simp [Value.isFunc] at hf
      · rw [if_neg hk] at h
        exact ih k v h
    · rw [if_neg (by exact hp)] at h
      exact ih k v h

theorem tempFuncs_lookup_isFunc (es : List (String × Value)) (k : String) (v : Value)
    (h : (tempFuncs (GoMap.mk es)).lookup k = some v) : ∃ f, v = Value.func f :=
  lookupEntries_filter_isFunc es k v h

/-- plainTagFuncErr holds when a tag is a plain variable (neither a
function call nor an expression) bound to a legacy direct-write
callback (TagFunc) whose invocation on that tag returns an error: the
single path on which tolerant-mode tag processing surfaces an error. -/
def plainTagFuncErr (tag : String) (m : GoMap) : Prop :=
  isFunctionCall tag = false ∧ isExpression tag = false ∧
  ∃ f g, m.lookup tag = some (.func f) ∧ f.tagFunc = some g ∧ (g tag).2.2 ≠ none

theorem processTagStd_no_err (tag startTag endTag : String) (m : GoMap)
    (h : ¬ plainTagFuncErr tag m) : (processTagStd tag startTag endTag m).err = none := by
  unfold processTagStd
  repeat' split
  all_goals try rfl
  case isTrue.h_2.h_2.h_3 =>
    rename_i o1 val hnf heq
    obtain ⟨f, rfl⟩ := tempFuncs_lookup_isFunc _ _ _ heq
    exact (hnf f rfl).elim
  case isFalse.isFalse.h_5.h_1 =>
    rename_i hnf1 hne1 o1 f hlk o2 g htf
    rw [Bool.not_eq_true] at hnf1 hne1
    show (g tag).2.2 = none
    by_cases hn : (g tag).2.2 = none
    · exact hn
    · exact absurd ⟨hnf1, hne1, f, g, hlk, htf, hn⟩ h

theorem strict_fail_preserved (tag startTag endTag : String) (m : GoMap) (e : GoErr)
    (hntf : ¬ plainTagFuncErr tag m) (he : (processTag tag m).err = some e) :
    (processTagStd tag startTag endTag m).err = none ∧
    (processTagStd tag startTag endTag m).out = startTag ++ tag ++ endTag := by
  unfold processTag at he
  cases hf : isFunctionCall tag with
  | true =>
    rw [if_pos hf] at he
    cases hp : parseFunctionCall tag with
    | error pe =>
      constructor <;> simp [processTagStd, hf, hp]
    | ok fc =>
      rw [hp] at he
      dsimp only at he
      cases m with
      | nil =>
        constructor <;> simp [processTagStd, hf, hp]
      | mk es =>
        dsimp only at he
        cases hl : (tempFuncs (GoMap.mk es)).lookup fc.name with
        | none =>
          constructor <;> simp [processTagStd, hf, hp, hl]
        | some val =>
          obtain ⟨f, rfl⟩ := tempFuncs_lookup_isFunc _ _ _ hl
          rw [hl] at he
          dsimp only at he
          cases hc : isValidArgCount f.numIn f.variadic fc.args.length with
          | false =>
            constructor <;> simp [processTagStd, hf, hp, hl, hc]
          | true =>
            rw [hc] at he
            rw [if_neg (by simp)] at he
            rcases hh : executeF (evalFuel tag) (tempFuncs (GoMap.mk es)) fc (GoMap.mk es)
              with ⟨ex, tr, mo⟩
            rw [hh] at he
            cases ex with
            | error e2 =>
              constructor <;> simp [processTagStd, hf, hp, hl, hc, hh]
            | ok v =>
              exfalso
              cases v <;> (dsimp only at he; exact Option.noConfusion he)
  | false =>
    rw [if_neg (by simp [hf])] at he
    cases hex : isExpression tag with
    | true =>
      rw [if_pos hex] at he
      rcases hev : evalExpression tag m with ⟨ex, tr, mo⟩
      rw [hev] at he
      cases ex with
      | error e2 =>
        constructor <;> simp [processTagStd, hf, hex, hev]
      | ok v =>
        exfalso
        cases v <;> (dsimp only at he; exact Option.noConfusion he)
    | false =>
      rw [if_neg (by simp [hex])] at he
      cases hl : m.lookup tag with
      | none =>
        constructor <;> simp [processTagStd, hf, hex, hl]
      | some val =>
        rw [hl] at he
        cases val with
        | null => exact absurd he (by simp)
        | bytes s => exact absurd he (by simp)
        | str s => exact absurd he (by simp)
        | int n => exact absurd he (by simp)
        | float q => exact absurd he (by simp)
        | bool b => exact absurd he (by simp)
        | func f =>
          dsimp only at he
          cases htf : f.tagFunc with
          | none => rw [htf] at he; exact absurd he (by simp)
          | some g =>
            rw [htf] at he
            dsimp only at he
            exact absurd ⟨hf, hex, f, g, hl, htf, by rw [he]; simp⟩ hntf

/-- boomTagFunc models a binding whose value is a legacy TagFunc callback
(func(io.Writer, string) (int, error)) that always returns an error, as Go
code can supply for a plain tag. -/
def boomTagFunc : FuncVal :=
  ⟨1, false, none, some (fun _ => ("", 0, some (GoErr.plain "boom"))),
    fun _ => Except.error "boom"⟩

/-- C1 counterexample: binding the plain tag "x" to a legacy TagFunc callback
that returns an error makes tolerant-mode rendering (ExecuteStd, modelled by
processTagStd/goExecuteStd) surface that error instead of preserving the tag:
processTagStd returns the callback's error, and the whole tolerant render of
"{{x}}" returns it too (template.go:668-670 returns value(w, tag) directly).
This refutes "tolerant-mode rendering never surfaces an error for any failing
tag". -/
theorem claim_C1_tolerant_error_counterexample :
    (processTagStd "x" "\x7b\x7b" "\x7d\x7d" (GoMap.mk [("x", Value.func boomTagFunc)])).err
        = some (GoErr.plain "boom") ∧
    (goExecuteStd "\x7b\x7bx\x7d\x7d" "\x7b\x7b" "\x7d\x7d" (GoMap.mk [("x", Value.func boomTagFunc)])).err
        = some (GoErr.plain "boom") ∧
    (goExecuteStd "\x7b\x7bx\x7d\x7d" "\x7b\x7b" "\x7d\x7d" (GoMap.mk [("x", Value.func boomTagFunc)])).out
        ≠ "\x7b\x7bx\x7d\x7d" :=
  ⟨rfl, rfl, by decide⟩

/-- C1 (amended): for a function-call tag whose name is not bound in the map,
strict mode (processTag) returns the "function not found" error and writes
nothing, while tolerant mode (processTagStd) writes startTag++tag++endTag
verbatim with no error; in general, for every tag that is NOT a plain tag
bound to an error-returning legacy TagFunc callback (plainTagFuncErr),
tolerant mode surfaces no error, and whenever strict mode fails on such a tag
tolerant mode preserves it verbatim; the spec's scenario "{{unknown(1)}}"
renders accordingly under both modes.  (The original claim's "never surfaces
an error" is corrected by the plainTagFuncErr exception, witnessed by
claim_C1_tolerant_error_counterexample.) -/
theorem claim_C1_unknown_function_modes (tag startTag endTag : String)
    (es : List (String × Value)) (fc : FuncCallT)
    (hf : isFunctionCall tag = true) (hp : parseFunctionCall tag = Except.ok fc)
    (hl : (tempFuncs (GoMap.mk es)).lookup fc.name = none) :
    processTag tag (GoMap.mk es)
      = ⟨0, some (GoErr.plain ("function not found: " ++ fc.name)), "", [], GoMap.mk es⟩ ∧
    processTagStd tag startTag endTag (GoMap.mk es)
      = ⟨(startTag ++ tag ++ endTag).length, none, startTag ++ tag ++ endTag, [],
          GoMap.mk es⟩ ∧
    (∀ (t st et : String) (m : GoMap), ¬ plainTagFuncErr t m →
      (processTagStd t st et m).err = none) ∧
    (∀ (t st et : String) (m : GoMap) (e : GoErr), ¬ plainTagFuncErr t m →
      (processTag t m).err = some e →
      (processTagStd t st et m).err = none ∧
      (processTagStd t st et m).out = st ++ t ++ et) ∧
    (goExecute "\x7b\x7bunknown(1)\x7d\x7d" "\x7b\x7b" "\x7d\x7d" (GoMap.mk [("y", Value.int 7)])).err
      = some (GoErr.plain ("function not found: unknown")) ∧
    (goExecute "\x7b\x7bunknown(1)\x7d\x7d" "\x7b\x7b" "\x7d\x7d" (GoMap.mk [("y", Value.int 7)])).out = "" ∧
    (goExecuteStd "\x7b\x7bunknown(1)\x7d\x7d" "\x7b\x7b" "\x7d\x7d" (GoMap.mk [("y", Value.int 7)])).err = none ∧
    (goExecuteStd "\x7b\x7bunknown(1)\x7d\x7d" "\x7b\x7b" "\x7d\x7d" (GoMap.mk [("y", Value.int 7)])).out
      = "\x7b\x7bunknown(1)\x7d\x7d" := by
  refine ⟨?_, ?_, ?_, ?_, rfl, rfl, rfl, rfl⟩
  · simp [processTag, hf, hp, hl]
  · simp [processTagStd, hf, hp, hl]
  · exact fun t st et m h => processTagStd_no_err t st et m h
  · exact fun t st et m e h he => strict_fail_preserved t st et m e h he

/-- C1 witness: the amended theorem applied to the concrete spec scenario
tag "unknown(1)" against the map [("y", 7)]. -/
theorem claim_C1_unknown_function_modes_witness :
    (processTag "unknown(1)" (GoMap.mk [("y", Value.int 7)])).err
        = some (GoErr.plain ("function not found: unknown")) ∧
    (processTagStd "unknown(1)" "\x7b\x7b" "\x7d\x7d" (GoMap.mk [("y", Value.int 7)])).out
        = "\x7b\x7bunknown(1)\x7d\x7d" := by
  have h := claim_C1_unknown_function_modes "unknown(1)" "\x7b\x7b" "\x7d\x7d"
    [("y", Value.int 7)] ⟨"unknown", [Arg.int 1]⟩ rfl rfl rfl
  exact ⟨by rw [h.1]; rfl, by rw [h.2.1]; rfl⟩

end Fasttemplate
